import Mathlib

set_option maxRecDepth 8000

/-!
Verification development for the nand2tetris toolchain of this repository:
a Hack assembler (`assembler.py`), a chapter-7 VM translator
(`vm_translator.py`) and a chapter-8 VM translator (`VM_translator2.py`).
The Python sources are embedded shallowly: lines of text are lists of
characters, emitted assembly is a list of strings, mutable writer objects
become explicit state records, and Python exceptions become `Except`.
-/

namespace N2T

/-- A line of source text, as a list of characters. -/
abbrev Line := List Char

/-- ASCII whitespace as recognized by Python `str.strip` / `str.isspace`
on ASCII input: space, tab, newline, carriage return, vertical tab, form
feed.  (Python also strips some non-ASCII Unicode whitespace; theorems
that depend on this helper are stated for ASCII input.) -/
def pyIsSpaceChar (c : Char) : Bool :=
  c = ' ' || c = '\t' || c = '\n' || c = '\r' || c = '\x0B' || c = '\x0C'

/-- Python `s.strip()`: remove leading and trailing whitespace. -/
def pyStrip (l : Line) : Line :=
  (((l.dropWhile pyIsSpaceChar).reverse).dropWhile pyIsSpaceChar).reverse

/-- Whether the text contains two consecutive slashes, i.e. Python
`"//" in line`. -/
def hasDSlash : Line → Bool
  | [] => false
  | c :: rest => (c = '/' && rest.head? = some '/') || hasDSlash rest

/-- Everything strictly before the first occurrence of `//`, i.e. Python
`line.split("//")[0]` (with or without a maxsplit of 1 the head of the
split is the same). -/
def beforeComment : Line → Line
  | [] => []
  | c :: rest =>
    if c = '/' && rest.head? = some '/' then []
    else c :: beforeComment rest

/-- `assembler.py` `strip_comment_and_ws`: if the line contains `//`,
keep only what precedes it, then strip surrounding whitespace. -/
def strip_comment_and_ws (l : Line) : Line :=
  pyStrip (if hasDSlash l then beforeComment l else l)

/-- `VM_translator2.py` / `vm_translator.py` `Parser.__init__` per-line
normalization: `raw.split("//")[0].strip()`. -/
def vmNormalize (l : Line) : Line :=
  pyStrip (beforeComment l)

/-- `assembler.py` `is_label`: starts with `(`, ends with `)`, length at
least 3. -/
def is_label (l : Line) : Bool :=
  l.head? = some '(' && l.getLast? = some ')' && decide (3 ≤ l.length)

/-- `assembler.py` `parse_label`: `line[1:-1].strip()`. -/
def parse_label (l : Line) : Line := pyStrip ((l.drop 1).dropLast)

/-- `assembler.py` `is_a_instruction`: starts with `@`. -/
def is_a_instruction (l : Line) : Bool := l.head? = some '@'

/-- `assembler.py` `parse_a_symbol`: `line[1:].strip()`. -/
def parse_a_symbol (l : Line) : Line := pyStrip (l.drop 1)

/-- Python `s.split(sep, 1)` as the pair (before, after) of the first
occurrence of a one-character separator, or `none` if absent. -/
def splitOnce (sep : Char) : Line → Option (Line × Line)
  | [] => none
  | c :: rest =>
    if c = sep then some ([], rest)
    else
      match splitOnce sep rest with
      | some (a, b) => some (c :: a, b)
      | none => none

/-- `assembler.py` `parse_c_instruction`: split an instruction body into
`(dest?, comp, jump?)`; an empty `dest` or `jump` after stripping is
absent (`None`). -/
def parse_c_instruction (l : Line) : Option String × String × Option String :=
  let dcj :=
    match splitOnce '=' l with
    | some (d, cj) =>
      (let ds := pyStrip d
       (if ds = [] then none else some (String.mk ds)), cj)
    | none => ((none : Option String), l)
  let cj :=
    match splitOnce ';' dcj.2 with
    | some (cpart, j) =>
      (cpart,
       let js := pyStrip j
       (if js = [] then none else some (String.mk js)))
    | none => (dcj.2, (none : Option String))
  (dcj.1, String.mk (pyStrip cj.1), cj.2)

/-- `assembler.py` `DEST_TABLE` (keys `Optional[str]`). -/
def DEST_TABLE : Option String → Option String
  | none => some "000"
  | some "M" => some "001"
  | some "D" => some "010"
  | some "MD" => some "011"
  | some "A" => some "100"
  | some "AM" => some "101"
  | some "AD" => some "110"
  | some "AMD" => some "111"
  | some _ => none

/-- `assembler.py` `JUMP_TABLE` (keys `Optional[str]`). -/
def JUMP_TABLE : Option String → Option String
  | none => some "000"
  | some "JGT" => some "001"
  | some "JEQ" => some "010"
  | some "JGE" => some "011"
  | some "JLT" => some "100"
  | some "JNE" => some "101"
  | some "JLE" => some "110"
  | some "JMP" => some "111"
  | some _ => none

/-- `assembler.py` `COMP_TABLE`. -/
def COMP_TABLE : String → Option String
  | "0" => some "0101010"
  | "1" => some "0111111"
  | "-1" => some "0111010"
  | "D" => some "0001100"
  | "A" => some "0110000"
  | "!D" => some "0001101"
  | "!A" => some "0110001"
  | "-D" => some "0001111"
  | "-A" => some "0110011"
  | "D+1" => some "0011111"
  | "A+1" => some "0110111"
  | "D-1" => some "0001110"
  | "A-1" => some "0110010"
  | "D+A" => some "0000010"
  | "D-A" => some "0010011"
  | "A-D" => some "0000111"
  | "D&A" => some "0000000"
  | "D|A" => some "0010101"
  | "M" => some "1110000"
  | "!M" => some "1110001"
  | "-M" => some "1110011"
  | "M+1" => some "1110111"
  | "M-1" => some "1110010"
  | "D+M" => some "1000010"
  | "D-M" => some "1010011"
  | "M-D" => some "1000111"
  | "D&M" => some "1000000"
  | "D|M" => some "1010101"
  | _ => none

/-- The symbol table: a dictionary from names to addresses, embedded as
an association list whose most recent binding shadows older ones
(each key is only ever inserted once, so the order is immaterial). -/
abbrev SymTable := List (String × Nat)

/-- Dictionary lookup. -/
def lookupSym (k : String) : SymTable → Option Nat
  | [] => none
  | (a, v) :: rest => if a = k then some v else lookupSym k rest

/-- The keys of the table. -/
def symKeys (t : SymTable) : List String := t.map Prod.fst

/-- `assembler.py` `PREDEFINED`. -/
def PREDEFINED : SymTable :=
  [("SP", 0), ("LCL", 1), ("ARG", 2), ("THIS", 3), ("THAT", 4),
   ("SCREEN", 16384), ("KBD", 24576),
   ("R0", 0), ("R1", 1), ("R2", 2), ("R3", 3), ("R4", 4), ("R5", 5),
   ("R6", 6), ("R7", 7), ("R8", 8), ("R9", 9), ("R10", 10), ("R11", 11),
   ("R12", 12), ("R13", 13), ("R14", 14), ("R15", 15)]

/-- ASCII decimal digit, as accepted by Python `str.isdigit` on ASCII
input (Python additionally accepts some non-ASCII digit characters;
theorems using this are stated for ASCII input). -/
def pyIsDigitChar (c : Char) : Bool := '0' ≤ c && c ≤ '9'

/-- Python `token.isdigit()` on ASCII input: nonempty and all digits. -/
def isDigitToken (t : Line) : Bool := !t.isEmpty && t.all pyIsDigitChar

/-- Python `int(token)` for an all-digit token. -/
def digitsVal (t : Line) : Nat := t.foldl (fun a c => 10 * a + (c.toNat - 48)) 0

/-- The binary digits of `n`, least significant first (empty for 0),
computed with a structural fuel argument (`fuel ≥ n` suffices). -/
def binDigitsAux : Nat → Nat → List Char
  | 0, _ => []
  | fuel + 1, n =>
    if n = 0 then []
    else (if n % 2 = 1 then '1' else '0') :: binDigitsAux fuel (n / 2)

/-- The binary digits of `n`, least significant first (empty for 0). -/
def natToBinRev (n : Nat) : List Char := binDigitsAux n n

/-- Python `f-string` formatting `{n:015b}`: the binary digits of `n`
zero-padded on the left to 15 characters. -/
def to15ok (n : Nat) : String :=
  String.mk (List.replicate (15 - (natToBinRev n).length) '0' ++ (natToBinRev n).reverse)

/-- The assembler's error kinds (the source raises `AsmError` with a
formatted message; only the kind and payload are modelled). -/
inductive AsmErr where
  | constantOutOfRange (n : Nat)
  | invalidLabel
  | labelRedefined (name : String)
  | invalidComp
  | invalidDest
  | invalidJump
  deriving DecidableEq

/-- `assembler.py` `to_15bit_binary`: raise `ConstantOutOfRange` outside
`[0, 32767]`, else format as 15 binary digits.  (All call sites pass a
natural number, so the `n < 0` guard of the source is vacuous here.) -/
def to_15bit_binary (n : Nat) : Except AsmErr String :=
  if 32767 < n then .error (.constantOutOfRange n)
  else .ok (to15ok n)

/-- The classification a normalized line receives in the two assembler
passes: blank, label pseudo-instruction (with its parsed inner text),
A-instruction with a digit token, A-instruction with a symbol token, or
C-instruction with its parsed fields.  This packages the source's
`strip_comment_and_ws` / `is_label` / `is_a_instruction` /
`token.isdigit()` branch structure. -/
inductive LineKind where
  | blank
  | labelLine (inner : Line)
  | aConst (v : Nat)
  | aSymbol (name : String)
  | cInstr (dest : Option String) (comp : String) (jump : Option String)
  deriving DecidableEq

/-- Classify a raw source line the way both assembler passes do. -/
def classify (l : Line) : LineKind :=
  let text := strip_comment_and_ws l
  if text = [] then .blank
  else if is_label text then .labelLine (parse_label text)
  else if is_a_instruction text then
    let token := parse_a_symbol text
    if isDigitToken token then .aConst (digitsVal token)
    else .aSymbol (String.mk token)
  else
    let dcj := parse_c_instruction text
    .cInstr dcj.1 dcj.2.1 dcj.2.2

/-- One line of `assembler.py` `pass1_build_symbols`: labels are checked
and bound to the current ROM address; any other non-blank line consumes
one ROM address. -/
def pass1Step (st : SymTable × Nat) (l : Line) : Except AsmErr (SymTable × Nat) :=
  match classify l with
  | .blank => .ok st
  | .labelLine inner =>
    if inner = [] || inner.any pyIsSpaceChar then .error .invalidLabel
    else
      let label := String.mk inner
      match lookupSym label st.1 with
      | some a => if a = st.2 then .ok st else .error (.labelRedefined label)
      | none => .ok ((label, st.2) :: st.1, st.2)
  | _ => .ok (st.1, st.2 + 1)

/-- The pass-1 fold over the source lines. -/
def pass1Aux : List Line → SymTable × Nat → Except AsmErr (SymTable × Nat)
  | [], st => .ok st
  | l :: ls, st =>
    match pass1Step st l with
    | .ok st1 => pass1Aux ls st1
    | .error e => .error e

/-- `assembler.py` `pass1_build_symbols`: seed with `PREDEFINED`, ROM
address 0. -/
def pass1_build_symbols (lines : List Line) : Except AsmErr SymTable :=
  (pass1Aux lines (PREDEFINED, 0)).map Prod.fst

/-- The mutable state of `assembler.py` `pass2_translate`: the emitted
words, the symbol table, and `next_var_addr`. -/
structure Pass2St where
  out : List String
  symbols : SymTable
  nextVar : Nat
  deriving DecidableEq

/-- One line of `assembler.py` `pass2_translate`. -/
def pass2Step (st : Pass2St) (l : Line) : Except AsmErr Pass2St :=
  match classify l with
  | .blank => .ok st
  | .labelLine _ => .ok st
  | .aConst v =>
    match to_15bit_binary v with
    | .ok bits => .ok { st with out := st.out ++ ["0" ++ bits] }
    | .error e => .error e
  | .aSymbol name =>
    match lookupSym name st.symbols with
    | none =>
      match to_15bit_binary st.nextVar with
      | .ok bits =>
        .ok { out := st.out ++ ["0" ++ bits],
              symbols := (name, st.nextVar) :: st.symbols,
              nextVar := st.nextVar + 1 }
      | .error e => .error e
    | some a =>
      match to_15bit_binary a with
      | .ok bits => .ok { st with out := st.out ++ ["0" ++ bits] }
      | .error e => .error e
  | .cInstr d c j =>
    match COMP_TABLE c with
    | none => .error .invalidComp
    | some cb =>
      match DEST_TABLE d with
      | none => .error .invalidDest
      | some db =>
        match JUMP_TABLE j with
        | none => .error .invalidJump
        | some jb => .ok { st with out := st.out ++ ["111" ++ cb ++ db ++ jb] }

/-- The pass-2 fold over the source lines. -/
def pass2Aux : List Line → Pass2St → Except AsmErr Pass2St
  | [], st => .ok st
  | l :: ls, st =>
    match pass2Step st l with
    | .ok st1 => pass2Aux ls st1
    | .error e => .error e

/-- `assembler.py` `pass2_translate`: start with no output and
`next_var_addr = 16`. -/
def pass2_translate (lines : List Line) (symbols : SymTable) : Except AsmErr (List String) :=
  (pass2Aux lines { out := [], symbols := symbols, nextVar := 16 }).map Pass2St.out

/-- Python exceptions raised by the VM translators. -/
inductive PyErr where
  | valueError (msg : String)
  | attributeError (msg : String)
  | indexError
  deriving DecidableEq

/-- Python `s.upper()` on ASCII input. -/
def pyUpper (s : String) : String := String.mk (s.toList.map Char.toUpper)

/-- The `{"eq": "JEQ", "gt": "JGT", "lt": "JLT"}[op]` dictionary lookup
of both translators' `_write_compare`; only ever reached with one of the
three keys. -/
def jumpFor (op : String) : String :=
  if op = "eq" then "JEQ" else if op = "gt" then "JGT" else "JLT"

/-- Tokenization helper for Python `s.split()` (split on whitespace
runs, dropping empty pieces); `acc` is the current word reversed. -/
def splitWsAux : Line → Line → List Line
  | [], acc => if acc = [] then [] else [acc.reverse]
  | c :: rest, acc =>
    if pyIsSpaceChar c then
      if acc = [] then splitWsAux rest []
      else acc.reverse :: splitWsAux rest []
    else splitWsAux rest (c :: acc)

/-- Python `s.split()` with no arguments. -/
def pySplitWs (l : Line) : List Line := splitWsAux l []

namespace VM7

/-- The chapter-7 `CodeWriter` state: emitted assembly lines, current
file name (for `static`), and the comparison-label counter. -/
structure CW where
  lines : List String
  filename : String
  labelCount : Nat
  deriving DecidableEq

/-- `vm_translator.py` `CodeWriter._write_binary_op`. -/
def write_binary_op (op : String) (st : CW) : CW :=
  let st := { st with lines := st.lines ++ ["@SP", "AM=M-1", "D=M", "A=A-1"] }
  if op = "add" then { st with lines := st.lines ++ ["M=M+D"] }
  else if op = "sub" then { st with lines := st.lines ++ ["M=M-D"] }
  else if op = "and" then { st with lines := st.lines ++ ["M=M&D"] }
  else if op = "or" then { st with lines := st.lines ++ ["M=M|D"] }
  else st

/-- `vm_translator.py` `CodeWriter._write_unary_op`. -/
def write_unary_op (op : String) (st : CW) : CW :=
  let st := { st with lines := st.lines ++ ["@SP", "A=M-1"] }
  if op = "neg" then { st with lines := st.lines ++ ["M=-M"] }
  else if op = "not" then { st with lines := st.lines ++ ["M=!M"] }
  else st

/-- `vm_translator.py` `CodeWriter._write_compare`: fresh
`<OP>_TRUE_<n>` / `<OP>_END_<n>` labels from `op.upper()` and the
comparison counter, which is incremented once. -/
def write_compare (op : String) (st : CW) : CW :=
  let trueLabel := pyUpper op ++ "_TRUE_" ++ toString st.labelCount
  let endLabel := pyUpper op ++ "_END_" ++ toString st.labelCount
  let st := { st with labelCount := st.labelCount + 1 }
  let jump := jumpFor op
  { st with lines := st.lines ++
      ["@SP", "AM=M-1", "D=M", "A=A-1", "D=M-D",
       "@" ++ trueLabel, "D;" ++ jump,
       "@SP", "A=M-1", "M=0",
       "@" ++ endLabel, "0;JMP",
       "(" ++ trueLabel ++ ")",
       "@SP", "A=M-1", "M=-1",
       "(" ++ endLabel ++ ")"] }

/-- `vm_translator.py` `CodeWriter.write_arithmetic`. -/
def write_arithmetic (op : String) (st : CW) : Except PyErr CW :=
  let st := { st with lines := st.lines ++ ["// " ++ op] }
  if op ∈ ["add", "sub", "and", "or"] then .ok (write_binary_op op st)
  else if op ∈ ["neg", "not"] then .ok (write_unary_op op st)
  else if op ∈ ["eq", "gt", "lt"] then .ok (write_compare op st)
  else .error (.valueError ("Unknown arithmetic op: " ++ op))

/-- `vm_translator.py` `CodeWriter._write_pop`. -/
def write_pop (segment : String) (index : Int) (st : CW) : Except PyErr CW :=
  if segment ∈ ["local", "argument", "this", "that"] then
    let base := if segment = "local" then "LCL"
      else if segment = "argument" then "ARG"
      else if segment = "this" then "THIS" else "THAT"
    .ok { st with lines := st.lines ++
      ["@" ++ base, "D=M", "@" ++ toString index, "D=D+A", "@R13", "M=D"] ++
      ["@SP", "AM=M-1", "D=M", "@R13", "A=M", "M=D"] }
  else if segment = "temp" then
    .ok { st with lines := st.lines ++
      ["@SP", "AM=M-1", "D=M", "@" ++ toString (5 + index), "M=D"] }
  else if segment = "pointer" then
    let st := { st with lines := st.lines ++ ["@SP", "AM=M-1", "D=M"] }
    if index = 0 then .ok { st with lines := st.lines ++ ["@THIS", "M=D"] }
    else if index = 1 then .ok { st with lines := st.lines ++ ["@THAT", "M=D"] }
    else .error (.valueError "pointer index must be 0 or 1")
  else if segment = "static" then
    .ok { st with lines := st.lines ++
      ["@SP", "AM=M-1", "D=M", "@" ++ st.filename ++ "." ++ toString index, "M=D"] }
  else .error (.valueError ("Unknown segment for pop: " ++ segment))

end VM7

namespace VM8

/-- The chapter-8 `CodeWriter` state: emitted lines, current file name,
comparison-label counter, call counter, and current function name. -/
structure CW where
  lines : List String
  filename : String
  labelCount : Nat
  callCount : Nat
  currentFunction : String
  deriving DecidableEq

/-- Python attribute access `op.UPPER()` in
`VM_translator2.py` `CodeWriter._write_compare`: `str` has no attribute
`UPPER` (the method is spelled `upper`), so evaluating it raises
`AttributeError` at runtime, for every receiver string. -/
def strUPPER (_s : String) : Except PyErr String :=
  .error (.attributeError "str object has no attribute UPPER")

/-- `VM_translator2.py` `CodeWriter._write_binary_op`. -/
def write_binary_op (op : String) (st : CW) : CW :=
  let st := { st with lines := st.lines ++ ["@SP", "AM=M-1", "D=M", "A=A-1"] }
  if op = "add" then { st with lines := st.lines ++ ["D=D+M", "M=D"] }
  else if op = "sub" then { st with lines := st.lines ++ ["D=-D", "D=D+M", "M=D"] }
  else if op = "and" then { st with lines := st.lines ++ ["D=D&M", "M=D"] }
  else if op = "or" then { st with lines := st.lines ++ ["D=D|M", "M=D"] }
  else st

/-- `VM_translator2.py` `CodeWriter._write_unary_op`. -/
def write_unary_op (op : String) (st : CW) : CW :=
  let st := { st with lines := st.lines ++ ["@SP", "A=M-1"] }
  if op = "neg" then { st with lines := st.lines ++ ["M=-M"] }
  else if op = "not" then { st with lines := st.lines ++ ["M=!M"] }
  else st

/-- `VM_translator2.py` `CodeWriter._write_compare`: the first f-string
evaluates `op.UPPER()`, which raises `AttributeError` before any line is
emitted or the counter incremented. -/
def write_compare (op : String) (st : CW) : Except PyErr CW :=
  match strUPPER op with
  | .error e => .error e
  | .ok u1 =>
    let trueLabel := u1 ++ "_TRUE_" ++ toString st.labelCount
    match strUPPER op with
    | .error e => .error e
    | .ok u2 =>
      let endLabel := u2 ++ "_END_" ++ toString st.labelCount
      let st := { st with labelCount := st.labelCount + 1 }
      let jump := jumpFor op
      .ok { st with lines := st.lines ++
          ["@SP", "AM=M-1", "D=M", "A=A-1", "D=-D", "D=D+M",
           "@" ++ trueLabel, "D;" ++ jump,
           "@SP", "A=M-1", "M=0",
           "@" ++ endLabel, "0;JMP",
           "(" ++ trueLabel ++ ")",
           "@SP", "A=M-1", "M=-1",
           "(" ++ endLabel ++ ")"] }

/-- `VM_translator2.py` `CodeWriter.write_arithmetic`. -/
def write_arithmetic (op : String) (st : CW) : Except PyErr CW :=
  let st := { st with lines := st.lines ++ ["// " ++ op] }
  if op ∈ ["add", "sub", "and", "or"] then .ok (write_binary_op op st)
  else if op ∈ ["neg", "not"] then .ok (write_unary_op op st)
  else if op ∈ ["eq", "gt", "lt"] then write_compare op st
  else .error (.valueError ("Unknown arithmetic op: " ++ op))

/-- `VM_translator2.py` `CodeWriter._write_push`: load the pushed value
into `D`, then the generic push sequence. -/
def write_push (segment : String) (index : Int) (st : CW) : Except PyErr CW :=
  let dload : Except PyErr (List String) :=
    if segment = "constant" then .ok ["@" ++ toString index, "D=A"]
    else if segment ∈ ["local", "argument", "this", "that"] then
      let base := if segment = "local" then "LCL"
        else if segment = "argument" then "ARG"
        else if segment = "this" then "THIS" else "THAT"
      .ok ["@" ++ base, "D=M", "@" ++ toString index, "A=D+A", "D=M"]
    else if segment = "temp" then .ok ["@" ++ toString (5 + index), "D=M"]
    else if segment = "pointer" then
      if index = 0 then .ok ["@THIS", "D=M"]
      else if index = 1 then .ok ["@THAT", "D=M"]
      else .error (.valueError "pointer index must be 0 or 1")
    else if segment = "static" then
      .ok ["@" ++ st.filename ++ "." ++ toString index, "D=M"]
    else .error (.valueError ("Unknown segment: " ++ segment))
  match dload with
  | .error e => .error e
  | .ok dl => .ok { st with lines := st.lines ++ dl ++ ["@SP", "A=M", "M=D", "@SP", "M=M+1"] }

/-- `VM_translator2.py` `CodeWriter._write_pop` (textually identical to
the chapter-7 version). -/
def write_pop (segment : String) (index : Int) (st : CW) : Except PyErr CW :=
  if segment ∈ ["local", "argument", "this", "that"] then
    let base := if segment = "local" then "LCL"
      else if segment = "argument" then "ARG"
      else if segment = "this" then "THIS" else "THAT"
    .ok { st with lines := st.lines ++
      ["@" ++ base, "D=M", "@" ++ toString index, "D=D+A", "@R13", "M=D"] ++
      ["@SP", "AM=M-1", "D=M", "@R13", "A=M", "M=D"] }
  else if segment = "temp" then
    .ok { st with lines := st.lines ++
      ["@SP", "AM=M-1", "D=M", "@" ++ toString (5 + index), "M=D"] }
  else if segment = "pointer" then
    let st := { st with lines := st.lines ++ ["@SP", "AM=M-1", "D=M"] }
    if index = 0 then .ok { st with lines := st.lines ++ ["@THIS", "M=D"] }
    else if index = 1 then .ok { st with lines := st.lines ++ ["@THAT", "M=D"] }
    else .error (.valueError "pointer index must be 0 or 1")
  else if segment = "static" then
    .ok { st with lines := st.lines ++
      ["@SP", "AM=M-1", "D=M", "@" ++ st.filename ++ "." ++ toString index, "M=D"] }
  else .error (.valueError ("Unknown segment for pop: " ++ segment))

/-- `VM_translator2.py` `CodeWriter.write_push_pop`: comment line, then
dispatch to push or pop. -/
def write_push_pop (isPush : Bool) (segment : String) (index : Int) (st : CW) :
    Except PyErr CW :=
  let cmd := if isPush then "push" else "pop"
  let st := { st with lines := st.lines ++
    ["// " ++ cmd ++ " " ++ segment ++ " " ++ toString index] }
  if isPush then write_push segment index st else write_pop segment index st

/-- `VM_translator2.py` `CodeWriter._scoped_label`: inside a function,
labels are namespaced as `function$label`. -/
def scoped_label (label : String) (st : CW) : String :=
  if st.currentFunction = "" then label else st.currentFunction ++ "$" ++ label

/-- `VM_translator2.py` `CodeWriter.write_label`. -/
def write_label (label : String) (st : CW) : CW :=
  { st with lines := st.lines ++
      ["// label " ++ label, "(" ++ scoped_label label st ++ ")"] }

/-- `VM_translator2.py` `CodeWriter.write_goto`. -/
def write_goto (label : String) (st : CW) : CW :=
  { st with lines := st.lines ++
      ["// goto " ++ label, "@" ++ scoped_label label st, "0;JMP"] }

/-- `VM_translator2.py` `CodeWriter.write_if`. -/
def write_if (label : String) (st : CW) : CW :=
  { st with lines := st.lines ++
      ["// if-goto " ++ label,
       "@SP", "AM=M-1", "D=M", "@" ++ scoped_label label st, "D;JNE"] }

/-- The `for _ in range(num_locals)` loop of `write_function`: `k`
pushes of `constant 0`. -/
def pushLocals : Nat → CW → Except PyErr CW
  | 0, st => .ok st
  | k + 1, st =>
    match write_push "constant" 0 st with
    | .ok st1 => pushLocals k st1
    | .error e => .error e

/-- `VM_translator2.py` `CodeWriter.write_function`: set the current
function, emit the entry label, push `k` zeroes (`range` of a negative
count is empty, as in Python). -/
def write_function (name : String) (numLocals : Int) (st : CW) : Except PyErr CW :=
  let st := { st with currentFunction := name }
  let st := { st with lines := st.lines ++
    ["// function " ++ name ++ " " ++ toString numLocals, "(" ++ name ++ ")"] }
  pushLocals numLocals.toNat st

/-- `VM_translator2.py` `CodeWriter.write_call`. -/
def write_call (name : String) (numArgs : Int) (st : CW) : CW :=
  let returnLabel := name ++ "$ret." ++ toString st.callCount
  let st := { st with callCount := st.callCount + 1 }
  let st := { st with lines := st.lines ++
    ["// call " ++ name ++ " " ++ toString numArgs] }
  let st := { st with lines := st.lines ++
    ["@" ++ returnLabel, "D=A", "@SP", "A=M", "M=D", "@SP", "M=M+1"] }
  let st := { st with lines := st.lines ++
    (["LCL", "ARG", "THIS", "THAT"].foldl
      (fun acc seg => acc ++ ["@" ++ seg, "D=M", "@SP", "A=M", "M=D", "@SP", "M=M+1"])
      []) }
  let st := { st with lines := st.lines ++
    ["@SP", "D=M", "@5", "D=D-A", "@" ++ toString numArgs, "D=D-A", "@ARG", "M=D"] }
  let st := { st with lines := st.lines ++ ["@SP", "D=M", "@LCL", "M=D"] }
  let st := { st with lines := st.lines ++ ["@" ++ name, "0;JMP"] }
  { st with lines := st.lines ++ ["(" ++ returnLabel ++ ")"] }

/-- `VM_translator2.py` `CodeWriter._restore_segment_from_frame`:
`seg := RAM[FRAME - offset]` with `FRAME` held in `R13`. -/
def restore_segment_from_frame (seg : String) (offset : Nat) (st : CW) : CW :=
  { st with lines := st.lines ++
      ["@R13", "D=M", "@" ++ toString offset, "A=D-A", "D=M", "@" ++ seg, "M=D"] }

/-- `VM_translator2.py` `CodeWriter.write_return`. -/
def write_return (st : CW) : CW :=
  let st := { st with lines := st.lines ++ ["// return"] }
  let st := { st with lines := st.lines ++ ["@LCL", "D=M", "@R13", "M=D"] }
  let st := { st with lines := st.lines ++ ["@5", "A=D-A", "D=M", "@R14", "M=D"] }
  let st := { st with lines := st.lines ++ ["@SP", "AM=M-1", "D=M", "@ARG", "A=M", "M=D"] }
  let st := { st with lines := st.lines ++ ["@ARG", "D=M+1", "@SP", "M=D"] }
  let st := restore_segment_from_frame "THAT" 1 st
  let st := restore_segment_from_frame "THIS" 2 st
  let st := restore_segment_from_frame "ARG" 3 st
  let st := restore_segment_from_frame "LCL" 4 st
  { st with lines := st.lines ++ ["@R14", "A=M", "0;JMP"] }

/-- `VM_translator2.py` `CodeWriter.write_init`: `SP := 256`, then
`call Sys.init 0`. -/
def write_init (st : CW) : CW :=
  let st := { st with lines := st.lines ++
    ["// bootstrap: SP=256; call Sys.init", "@256", "D=A", "@SP", "M=D"] }
  write_call "Sys.init" 0 st

/-- `VM_translator2.py` `Parser.__init__`: normalize each raw line and
keep the non-blank results as commands. -/
def parserCommands (textLines : List Line) : List Line :=
  textLines.filterMap (fun raw =>
    let code := vmNormalize raw
    if code = [] then none else some code)

/-- Python `int(s)` on a whitespace-free token: an optional minus sign
followed by ASCII digits; otherwise `ValueError`. -/
def pyInt (s : String) : Except PyErr Int :=
  match s.toList with
  | '-' :: ds =>
    if isDigitToken ds then .ok (-(digitsVal ds : Int))
    else .error (.valueError ("invalid literal for int: " ++ s))
  | ds =>
    if isDigitToken ds then .ok ((digitsVal ds : Int))
    else .error (.valueError ("invalid literal for int: " ++ s))

/-- Python `parts[i]`: `IndexError` when out of range. -/
def getPart (parts : List String) (i : Nat) : Except PyErr String :=
  match parts.get? i with
  | some s => .ok s
  | none => .error .indexError

/-- Python `cmd.split()` with the words as strings. -/
def commandParts (cmd : Line) : List String := (pySplitWs cmd).map String.mk

/-- One iteration of `VM_translator2.py` `translate_vm_text`:
`Parser.command_type` dispatch (first token), `arg1`/`arg2` access, and
the corresponding `CodeWriter` call. -/
def translateCmd (cmd : Line) (st : CW) : Except PyErr CW :=
  let parts := commandParts cmd
  match getPart parts 0 with
  | .error e => .error e
  | .ok op =>
    if op = "push" || op = "pop" then
      match getPart parts 1 with
      | .error e => .error e
      | .ok seg =>
        match getPart parts 2 with
        | .error e => .error e
        | .ok istr =>
          match pyInt istr with
          | .error e => .error e
          | .ok idx => write_push_pop (op = "push") seg idx st
    else if op = "label" then
      match getPart parts 1 with
      | .error e => .error e
      | .ok lab => .ok (write_label lab st)
    else if op = "goto" then
      match getPart parts 1 with
      | .error e => .error e
      | .ok lab => .ok (write_goto lab st)
    else if op = "if-goto" then
      match getPart parts 1 with
      | .error e => .error e
      | .ok lab => .ok (write_if lab st)
    else if op = "function" then
      match getPart parts 1 with
      | .error e => .error e
      | .ok name =>
        match getPart parts 2 with
        | .error e => .error e
        | .ok kstr =>
          match pyInt kstr with
          | .error e => .error e
          | .ok k => write_function name k st
    else if op = "call" then
      match getPart parts 1 with
      | .error e => .error e
      | .ok name =>
        match getPart parts 2 with
        | .error e => .error e
        | .ok nstr =>
          match pyInt nstr with
          | .error e => .error e
          | .ok n => .ok (write_call name n st)
    else if op = "return" then .ok (write_return st)
    else write_arithmetic op st

/-- The `while parser.has_more_commands()` loop of `translate_vm_text`. -/
def translateCmds : List Line → CW → Except PyErr CW
  | [], st => .ok st
  | c :: cs, st =>
    match translateCmd c st with
    | .ok st1 => translateCmds cs st1
    | .error e => .error e

/-- `VM_translator2.py` `translate_vm_text`: set the file name, then
translate each parsed command in order. -/
def translate_vm_text (textLines : List Line) (filename : String) (st : CW) :
    Except PyErr CW :=
  translateCmds (parserCommands textLines) { st with filename := filename }

/-- The per-file loop of `VM_translator2.py` `main`: emit the file
header comment, then translate the file's text.  Files are given as
(stem, lines of text) pairs, in the sorted order `main` discovers them;
reading from disk is I/O and not modelled. -/
def translateFiles : List (String × List Line) → CW → Except PyErr CW
  | [], st => .ok st
  | (fname, text) :: rest, st =>
    match translate_vm_text text fname
        { st with lines := st.lines ++ ["// === " ++ fname ++ ".vm ==="] } with
    | .ok st1 => translateFiles rest st1
    | .error e => .error e

/-- A fresh `CodeWriter()`. -/
def initialCW : CW :=
  { lines := [], filename := "", labelCount := 0, callCount := 0, currentFunction := "" }

/-- `VM_translator2.py` `main`, after input discovery: in directory mode
the bootstrap `write_init` runs once before any file is translated; in
single-file mode it does not run. -/
def mainTranslate (isDir : Bool) (files : List (String × List Line)) :
    Except PyErr (List String) :=
  if isDir then (translateFiles files (write_init initialCW)).map CW.lines
  else (translateFiles files initialCW).map CW.lines

end VM8

/-- The state of the Hack machine: address register `A`, data register
`D`, and RAM.  This is the standard semantics of the target platform
(needed to state what emitted assembly computes); values are unbounded
integers, exact for runs whose arithmetic stays inside the 16-bit
signed range. -/
structure HState where
  A : Int
  D : Int
  ram : Int → Int

/-- Pointwise RAM update. -/
def wr (r : Int → Int) (a v : Int) : Int → Int :=
  fun x => if x = a then v else r x

/-- One Hack instruction, for the instruction subset emitted by
`write_return`: `@const` / `@symbol` set `A`; computations read and
write `A`, `D` and `M = RAM[A]`; in `AM=M-1` the memory write goes to
the pre-instruction address, per the Hack CPU.  Comment lines are
skipped (the assembler discards them); anything else (including the
final `0;JMP`) stops execution. -/
def exec1 (s : String) (st : HState) : Option HState :=
  if s = "@SP" then some { st with A := 0 }
  else if s = "@LCL" then some { st with A := 1 }
  else if s = "@ARG" then some { st with A := 2 }
  else if s = "@THIS" then some { st with A := 3 }
  else if s = "@THAT" then some { st with A := 4 }
  else if s = "@R13" then some { st with A := 13 }
  else if s = "@R14" then some { st with A := 14 }
  else if s = "@1" then some { st with A := 1 }
  else if s = "@2" then some { st with A := 2 }
  else if s = "@3" then some { st with A := 3 }
  else if s = "@4" then some { st with A := 4 }
  else if s = "@5" then some { st with A := 5 }
  else if s = "D=M" then some { st with D := st.ram st.A }
  else if s = "M=D" then some { st with ram := wr st.ram st.A st.D }
  else if s = "A=D-A" then some { st with A := st.D - st.A }
  else if s = "A=M" then some { st with A := st.ram st.A }
  else if s = "D=M+1" then some { st with D := st.ram st.A + 1 }
  else if s = "AM=M-1" then
    some { st with A := st.ram st.A - 1, ram := wr st.ram st.A (st.ram st.A - 1) }
  else if s.toList.take 2 = ['/', '/'] then some st
  else none

/-- Run a straight-line instruction sequence. -/
def execList : List String → HState → Option HState
  | [], st => some st
  | i :: rest, st =>
    match exec1 i st with
    | some st1 => execList rest st1
    | none => none

/-! ### Spec-side definitions

The following definitions transcribe what the specification says is
emitted (spec §4.5, §4.8, bootstrap paragraph) or computed (spec §4.3,
§8), to be compared with the embedded source functions above. -/

/-- Spec §4.5: the comparison fragment for operation with uppercased
name `opUp` and jump mnemonic `jump` at comparison counter `n`: compute
`x - y`, branch to `<OP>_TRUE_<n>`, false arm writes 0, true arm writes
-1, end label `<OP>_END_<n>`. -/
def cmpChunkSpec (opUp jump : String) (n : Nat) : List String :=
  ["@SP", "AM=M-1", "D=M", "A=A-1", "D=M-D",
   "@" ++ (opUp ++ "_TRUE_" ++ toString n), "D;" ++ jump,
   "@SP", "A=M-1", "M=0",
   "@" ++ (opUp ++ "_END_" ++ toString n), "0;JMP",
   "(" ++ (opUp ++ "_TRUE_" ++ toString n) ++ ")",
   "@SP", "A=M-1", "M=-1",
   "(" ++ (opUp ++ "_END_" ++ toString n) ++ ")"]

/-- Spec §4.8: the return-address label `f$ret.<c>`. -/
def retLabelOf (f : String) (c : Nat) : String := f ++ "$ret." ++ toString c

/-- Spec §4.8 call step 1: push the return-address label. -/
def callPushRetSpec (retLabel : String) : List String :=
  ["@" ++ retLabel, "D=A", "@SP", "A=M", "M=D", "@SP", "M=M+1"]

/-- Spec §4.8 call step 2: push one saved segment base. -/
def callSaveSegSpec (seg : String) : List String :=
  ["@" ++ seg, "D=M", "@SP", "A=M", "M=D", "@SP", "M=M+1"]

/-- Spec §4.8 call step 3: `ARG := SP - 5 - n`. -/
def callSetArgSpec (n : Int) : List String :=
  ["@SP", "D=M", "@5", "D=D-A", "@" ++ toString n, "D=D-A", "@ARG", "M=D"]

/-- Spec §4.8 call step 4: `LCL := SP`. -/
def callSetLclSpec : List String := ["@SP", "D=M", "@LCL", "M=D"]

/-- Spec §4.8 call step 5: unconditional jump to `f`. -/
def callGotoSpec (f : String) : List String := ["@" ++ f, "0;JMP"]

/-- Spec §4.8 return step 1: `FRAME := LCL`, kept in `R13`. -/
def retFrameSpec : List String := ["@LCL", "D=M", "@R13", "M=D"]

/-- Spec §4.8 return step 2: `RET := RAM[FRAME-5]`, kept in `R14`. -/
def retCaptureSpec : List String := ["@5", "A=D-A", "D=M", "@R14", "M=D"]

/-- Spec §4.8 return step 3: `RAM[ARG] := pop()`. -/
def retPopArgSpec : List String := ["@SP", "AM=M-1", "D=M", "@ARG", "A=M", "M=D"]

/-- Spec §4.8 return step 4: `SP := ARG + 1`. -/
def retSpSpec : List String := ["@ARG", "D=M+1", "@SP", "M=D"]

/-- Spec §4.8 return step 5: one segment restore `seg := RAM[FRAME-off]`. -/
def retRestoreSpec (seg : String) (off : Nat) : List String :=
  ["@R13", "D=M", "@" ++ toString off, "A=D-A", "D=M", "@" ++ seg, "M=D"]

/-- Spec §4.8 return step 6: jump to `RET` (held in `R14`). -/
def retGotoSpec : List String := ["@R14", "A=M", "0;JMP"]

/-- Spec §4.8: the full `return` emission, steps 1-6 in order, with the
restores ordered `THAT, THIS, ARG, LCL`. -/
def returnChunkSpec : List String :=
  ["// return"] ++ retFrameSpec ++ retCaptureSpec ++ retPopArgSpec ++ retSpSpec
  ++ retRestoreSpec "THAT" 1 ++ retRestoreSpec "THIS" 2
  ++ retRestoreSpec "ARG" 3 ++ retRestoreSpec "LCL" 4 ++ retGotoSpec

/-- Spec bootstrap paragraph: `SP := 256` followed by the translation of
`call Sys.init 0` at call counter 0. -/
def bootstrapSpec : List String :=
  ["// bootstrap: SP=256; call Sys.init", "@256", "D=A", "@SP", "M=D"]
  ++ ["// call Sys.init 0"]
  ++ callPushRetSpec (retLabelOf "Sys.init" 0)
  ++ callSaveSegSpec "LCL" ++ callSaveSegSpec "ARG"
  ++ callSaveSegSpec "THIS" ++ callSaveSegSpec "THAT"
  ++ callSetArgSpec 0 ++ callSetLclSpec ++ callGotoSpec "Sys.init"
  ++ ["(" ++ retLabelOf "Sys.init" 0 ++ ")"]

/-- Spec §4.3/§8: the unbound A-instruction symbols of a program, in
order of first textual occurrence, given the set `dom` of names already
bound; these are the names that become RAM variables. -/
def newVarsAux : List Line → List String → List String
  | [], _ => []
  | l :: ls, dom =>
    match classify l with
    | .aSymbol name =>
      if name ∈ dom then newVarsAux ls dom
      else name :: newVarsAux ls (name :: dom)
    | _ => newVarsAux ls dom

/-- The machine word pass 2 emits for one line, resolved against a
(final) symbol table; `none` for lines that emit nothing. -/
def lineWord (sym : SymTable) (l : Line) : Option String :=
  match classify l with
  | .blank => none
  | .labelLine _ => none
  | .aConst v => some ("0" ++ to15ok v)
  | .aSymbol name =>
    match lookupSym name sym with
    | some a => some ("0" ++ to15ok a)
    | none => none
  | .cInstr d c j =>
    match COMP_TABLE c, DEST_TABLE d, JUMP_TABLE j with
    | some cb, some db, some jb => some ("111" ++ cb ++ db ++ jb)
    | _, _, _ => none

/-- The words of a whole program resolved against a symbol table. -/
def outSpec (sym : SymTable) (lines : List Line) : List String :=
  lines.filterMap (lineWord sym)

/-- The numeric value of a binary word (most significant bit first). -/
def decodeBits (s : String) : Nat :=
  s.toList.foldl (fun a c => 2 * a + (if c = '1' then 1 else 0)) 0

/-- A line that consumes a ROM address in pass 1: non-blank and not a
label pseudo-instruction. -/
def isInstrLine (l : Line) : Bool :=
  match classify l with
  | .blank => false
  | .labelLine _ => false
  | _ => true

/-- The number of real instructions in a list of lines: the ROM address
of the next instruction after them. -/
def instrCount (lines : List Line) : Nat := lines.countP isInstrLine

/-- Expected RAM after `return` step 1 (`R13 := LCL`), starting from
`ram0` with `RAM[0]=SP`, `RAM[1]=LCL`, `RAM[2]=ARG`. -/
def retRam1 (ram0 : Int → Int) : Int → Int := wr ram0 13 (ram0 1)

/-- ... after step 2 (`R14 := RAM[LCL-5]`). -/
def retRam2 (ram0 : Int → Int) : Int → Int :=
  wr (retRam1 ram0) 14 (ram0 (ram0 1 - 5))

/-- ... after the `SP` decrement of step 3. -/
def retRam3 (ram0 : Int → Int) : Int → Int := wr (retRam2 ram0) 0 (ram0 0 - 1)

/-- ... after step 3 (`RAM[ARG] := popped return value`). -/
def retRam4 (ram0 : Int → Int) : Int → Int :=
  wr (retRam3 ram0) (ram0 2) (ram0 (ram0 0 - 1))

/-- ... after step 4 (`SP := ARG + 1`). -/
def retRam5 (ram0 : Int → Int) : Int → Int := wr (retRam4 ram0) 0 (ram0 2 + 1)

/-- ... after `THAT := RAM[LCL-1]`. -/
def retRam6 (ram0 : Int → Int) : Int → Int :=
  wr (retRam5 ram0) 4 (ram0 (ram0 1 - 1))

/-- ... after `THIS := RAM[LCL-2]`. -/
def retRam7 (ram0 : Int → Int) : Int → Int :=
  wr (retRam6 ram0) 3 (ram0 (ram0 1 - 2))

/-- ... after `ARG := RAM[LCL-3]`. -/
def retRam8 (ram0 : Int → Int) : Int → Int :=
  wr (retRam7 ram0) 2 (ram0 (ram0 1 - 3))

/-- ... after `LCL := RAM[LCL-4]`: the final RAM of `return`. -/
def retRam9 (ram0 : Int → Int) : Int → Int :=
  wr (retRam8 ram0) 1 (ram0 (ram0 1 - 4))

/-- A concrete pre-`return` RAM used as a witness: `SP=320`, `LCL=310`,
`ARG=300`. -/
def ramW : Int → Int :=
  fun x => if x = 0 then 320 else if x = 1 then 310 else if x = 2 then 300 else 0

/-- `l2` extends `l1`: the emitted-lines list only ever grows by
appending. -/
def LinesExt (l1 l2 : List String) : Prop := ∃ t, l2 = l1 ++ t

/-- A concrete one-file input for the chapter-8 driver. -/
def c4Files : List (String × List Line) := [("Main", ["push constant 7".toList])]

/-- The directory-mode output on `c4Files`. -/
def c4DirOut : List String :=
  match VM8.mainTranslate true c4Files with
  | .ok l => l
  | .error _ => []

/-- The single-file-mode output on `c4Files`. -/
def c4OneOut : List String :=
  match VM8.mainTranslate false c4Files with
  | .ok l => l
  | .error _ => []

/-- A concrete assembler program with two variables (`i` first, then
`sum`) and a repeated use of `i`. -/
def c6Lines : List Line :=
  ["@i".toList, "M=1".toList, "@sum".toList, "M=0".toList, "@i".toList]

/-- The pass-2 result on `c6Lines` from an empty symbol table. -/
def c6St : Pass2St :=
  match pass2Aux c6Lines ⟨[], [], 16⟩ with
  | .ok st => st
  | .error _ => ⟨[], [], 16⟩

/-! ### Theorems -/

/-- **C10.** For every index `i`, translating `pop constant i` raises
`ValueError("Unknown segment for pop: constant")` in both the chapter-7
and the chapter-8 translator: `constant` matches none of the pop segment
branches and falls into the final `else` raise. -/
theorem c10_pop_constant_rejected (i : Int) (st7 : VM7.CW) (st8 : VM8.CW) :
    VM7.write_pop "constant" i st7 =
      .error (.valueError "Unknown segment for pop: constant") ∧
    VM8.write_pop "constant" i st8 =
      .error (.valueError "Unknown segment for pop: constant") :=
  ⟨rfl, rfl⟩

/-- **C1.** In the chapter-7 translator each comparison `op ∈ {eq,gt,lt}`
emits exactly the spec's compare fragment: `x - y`, a `JEQ`/`JGT`/`JLT`
branch to `<OP>_TRUE_<n>`, 0 in the false arm, -1 in the true arm,
labels `<OP>_TRUE_<n>` / `<OP>_END_<n>` at the current counter `n`,
which is incremented once.  In the chapter-8 translator the same claim
FAILS: `_write_compare` evaluates `op.UPPER()` (Python `str` has no
attribute `UPPER`), so every comparison raises `AttributeError` instead
of emitting code. -/
theorem c1_compare_emission (st7 : VM7.CW) (op : String) (st8 st8' : VM8.CW) :
    (VM7.write_arithmetic "eq" st7 =
      .ok { st7 with
            lines := st7.lines ++ ["// eq"] ++ cmpChunkSpec "EQ" "JEQ" st7.labelCount,
            labelCount := st7.labelCount + 1 } ∧
     VM7.write_arithmetic "gt" st7 =
      .ok { st7 with
            lines := st7.lines ++ ["// gt"] ++ cmpChunkSpec "GT" "JGT" st7.labelCount,
            labelCount := st7.labelCount + 1 } ∧
     VM7.write_arithmetic "lt" st7 =
      .ok { st7 with
            lines := st7.lines ++ ["// lt"] ++ cmpChunkSpec "LT" "JLT" st7.labelCount,
            labelCount := st7.labelCount + 1 }) ∧
    VM8.write_compare op st8 =
      .error (.attributeError "str object has no attribute UPPER") ∧
    (VM8.write_arithmetic "eq" st8' =
      .error (.attributeError "str object has no attribute UPPER") ∧
     VM8.write_arithmetic "gt" st8' =
      .error (.attributeError "str object has no attribute UPPER") ∧
     VM8.write_arithmetic "lt" st8' =
      .error (.attributeError "str object has no attribute UPPER")) :=
  ⟨⟨rfl, rfl, rfl⟩, rfl, ⟨rfl, rfl, rfl⟩⟩

/-- **C2.** `write_call f n` emits, in this order: the comment line,
(1) a push of the fresh return label `f$ret.<c>` at the current call
counter `c` (incremented once), (2) pushes of the saved bases
`LCL, ARG, THIS, THAT` in that order, (3) `ARG := SP - 5 - n`,
(4) `LCL := SP`, (5) an unconditional jump to `f`, and (6) the
definition of the return label. -/
theorem c2_write_call_structure (name : String) (n : Int) (st : VM8.CW) :
    VM8.write_call name n st =
      { st with
        callCount := st.callCount + 1,
        lines := st.lines
          ++ ["// call " ++ name ++ " " ++ toString n]
          ++ callPushRetSpec (retLabelOf name st.callCount)
          ++ (callSaveSegSpec "LCL" ++ callSaveSegSpec "ARG"
              ++ callSaveSegSpec "THIS" ++ callSaveSegSpec "THAT")
          ++ callSetArgSpec n ++ callSetLclSpec ++ callGotoSpec name
          ++ ["(" ++ retLabelOf name st.callCount ++ ")"] } := by
  simp only [VM8.write_call, callPushRetSpec, callSaveSegSpec, callSetArgSpec,
    callSetLclSpec, callGotoSpec, retLabelOf, List.foldl_cons, List.foldl_nil,
    List.append_assoc, List.cons_append, List.nil_append]

/-- Sequencing of straight-line execution: a successful prefix run
continues with the rest. -/
theorem execList_append_ok {xs : List String} (ys : List String) {st st1 : HState}
    (h : execList xs st = some st1) :
    execList (xs ++ ys) st = execList ys st1 := by
  induction xs generalizing st with
  | nil =>
    simp only [execList] at h
    injection h with h2
    rw [List.nil_append, h2]
  | cons i rest ih =>
    simp only [List.cons_append, execList] at h ⊢
    cases hx : exec1 i st with
    | none => rw [hx] at h; exact Option.noConfusion h
    | some st2 => rw [hx] at h; exact ih h

set_option maxHeartbeats 3200000 in
/-- Executing the straight-line part of the emitted `return` code (all
of it except the final jump) from a state whose frame pointers are
plausible (`ARG ≥ 256`, `ARG + 5 ≤ LCL`, `LCL < SP ≤ 32767`) yields
exactly the RAM `retRam9`, i.e. performs the spec's steps 1-5, and ends
with the return address — the value `RAM[LCL-5]` held *before* the
return value overwrote `RAM[ARG]` — in `A`. -/
theorem return_exec_sem (ram0 : Int → Int)
    (h1 : 256 ≤ ram0 2) (h2 : ram0 2 + 5 ≤ ram0 1) (h3 : ram0 1 < ram0 0)
    (_h4 : ram0 0 ≤ 32767) :
    ∃ stf : HState,
      execList returnChunkSpec.dropLast ⟨0, 0, ram0⟩ = some stf ∧
      stf.ram 13 = ram0 1 ∧
      stf.ram 14 = ram0 (ram0 1 - 5) ∧
      stf.ram (ram0 2) = ram0 (ram0 0 - 1) ∧
      stf.ram 0 = ram0 2 + 1 ∧
      stf.ram 4 = ram0 (ram0 1 - 1) ∧
      stf.ram 3 = ram0 (ram0 1 - 2) ∧
      stf.ram 2 = ram0 (ram0 1 - 3) ∧
      stf.ram 1 = ram0 (ram0 1 - 4) ∧
      stf.A = ram0 (ram0 1 - 5) := by
  have s1 : execList (["// return"] ++ retFrameSpec) ⟨0, 0, ram0⟩ =
      some ⟨13, ram0 1, retRam1 ram0⟩ := rfl
  have s2 : execList retCaptureSpec ⟨13, ram0 1, retRam1 ram0⟩ =
      some ⟨14, ram0 (ram0 1 - 5), retRam2 ram0⟩ := by
    have w2 : retRam1 ram0 (ram0 1 - 5) = ram0 (ram0 1 - 5) := by
      simp only [retRam1, wr]; split_ifs <;> omega
    have base : execList retCaptureSpec ⟨13, ram0 1, retRam1 ram0⟩ =
        some ⟨14, retRam1 ram0 (ram0 1 - 5),
              wr (retRam1 ram0) 14 (retRam1 ram0 (ram0 1 - 5))⟩ := rfl
    rw [base, w2]; rfl
  have s3 : execList retPopArgSpec ⟨14, ram0 (ram0 1 - 5), retRam2 ram0⟩ =
      some ⟨ram0 2, ram0 (ram0 0 - 1), retRam4 ram0⟩ := by
    have w30 : retRam2 ram0 0 = ram0 0 := by
      simp only [retRam2, retRam1, wr]; split_ifs <;> omega
    have base : execList retPopArgSpec ⟨14, ram0 (ram0 1 - 5), retRam2 ram0⟩ =
        some ⟨wr (retRam2 ram0) 0 (retRam2 ram0 0 - 1) 2,
              wr (retRam2 ram0) 0 (retRam2 ram0 0 - 1) (retRam2 ram0 0 - 1),
              wr (wr (retRam2 ram0) 0 (retRam2 ram0 0 - 1))
                (wr (retRam2 ram0) 0 (retRam2 ram0 0 - 1) 2)
                (wr (retRam2 ram0) 0 (retRam2 ram0 0 - 1) (retRam2 ram0 0 - 1))⟩ := rfl
    have w31 : wr (retRam2 ram0) 0 (ram0 0 - 1) 2 = ram0 2 := by
      simp only [retRam2, retRam1, wr]; split_ifs <;> omega
    have w32 : wr (retRam2 ram0) 0 (ram0 0 - 1) (ram0 0 - 1) = ram0 (ram0 0 - 1) := by
      simp only [retRam2, retRam1, wr]; split_ifs <;> omega
    rw [base, w30, w31, w32]; rfl
  have s4 : execList retSpSpec ⟨ram0 2, ram0 (ram0 0 - 1), retRam4 ram0⟩ =
      some ⟨0, ram0 2 + 1, retRam5 ram0⟩ := by
    have w4 : retRam4 ram0 2 = ram0 2 := by
      simp only [retRam4, retRam3, retRam2, retRam1, wr]; split_ifs <;> omega
    have base : execList retSpSpec ⟨ram0 2, ram0 (ram0 0 - 1), retRam4 ram0⟩ =
        some ⟨0, retRam4 ram0 2 + 1, wr (retRam4 ram0) 0 (retRam4 ram0 2 + 1)⟩ := rfl
    rw [base, w4]; rfl
  have s5 : execList (retRestoreSpec "THAT" 1) ⟨0, ram0 2 + 1, retRam5 ram0⟩ =
      some ⟨4, ram0 (ram0 1 - 1), retRam6 ram0⟩ := by
    have w50 : retRam5 ram0 13 = ram0 1 := by
      simp only [retRam5, retRam4, retRam3, retRam2, retRam1, wr]; split_ifs <;> omega
    have base : execList (retRestoreSpec "THAT" 1) ⟨0, ram0 2 + 1, retRam5 ram0⟩ =
        some ⟨4, retRam5 ram0 (retRam5 ram0 13 - 1),
              wr (retRam5 ram0) 4 (retRam5 ram0 (retRam5 ram0 13 - 1))⟩ := rfl
    have w51 : retRam5 ram0 (ram0 1 - 1) = ram0 (ram0 1 - 1) := by
      simp only [retRam5, retRam4, retRam3, retRam2, retRam1, wr]; split_ifs <;> omega
    rw [base, w50, w51]; rfl
  have s6 : execList (retRestoreSpec "THIS" 2) ⟨4, ram0 (ram0 1 - 1), retRam6 ram0⟩ =
      some ⟨3, ram0 (ram0 1 - 2), retRam7 ram0⟩ := by
    have w60 : retRam6 ram0 13 = ram0 1 := by
      simp only [retRam6, retRam5, retRam4, retRam3, retRam2, retRam1, wr]
      split_ifs <;> omega
    have base : execList (retRestoreSpec "THIS" 2) ⟨4, ram0 (ram0 1 - 1), retRam6 ram0⟩ =
        some ⟨3, retRam6 ram0 (retRam6 ram0 13 - 2),
              wr (retRam6 ram0) 3 (retRam6 ram0 (retRam6 ram0 13 - 2))⟩ := rfl
    have w61 : retRam6 ram0 (ram0 1 - 2) = ram0 (ram0 1 - 2) := by
      simp only [retRam6, retRam5, retRam4, retRam3, retRam2, retRam1, wr]
      split_ifs <;> omega
    rw [base, w60, w61]; rfl
  have s7 : execList (retRestoreSpec "ARG" 3) ⟨3, ram0 (ram0 1 - 2), retRam7 ram0⟩ =
      some ⟨2, ram0 (ram0 1 - 3), retRam8 ram0⟩ := by
    have w70 : retRam7 ram0 13 = ram0 1 := by
      simp only [retRam7, retRam6, retRam5, retRam4, retRam3, retRam2, retRam1, wr]
      split_ifs <;> omega
    have base : execList (retRestoreSpec "ARG" 3) ⟨3, ram0 (ram0 1 - 2), retRam7 ram0⟩ =
        some ⟨2, retRam7 ram0 (retRam7 ram0 13 - 3),
              wr (retRam7 ram0) 2 (retRam7 ram0 (retRam7 ram0 13 - 3))⟩ := rfl
    have w71 : retRam7 ram0 (ram0 1 - 3) = ram0 (ram0 1 - 3) := by
      simp only [retRam7, retRam6, retRam5, retRam4, retRam3, retRam2, retRam1, wr]
      split_ifs <;> omega
    rw [base, w70, w71]; rfl
  have s8 : execList (retRestoreSpec "LCL" 4) ⟨2, ram0 (ram0 1 - 3), retRam8 ram0⟩ =
      some ⟨1, ram0 (ram0 1 - 4), retRam9 ram0⟩ := by
    have w80 : retRam8 ram0 13 = ram0 1 := by
      simp only [retRam8, retRam7, retRam6, retRam5, retRam4, retRam3, retRam2,
        retRam1, wr]
      split_ifs <;> omega
    have base : execList (retRestoreSpec "LCL" 4) ⟨2, ram0 (ram0 1 - 3), retRam8 ram0⟩ =
        some ⟨1, retRam8 ram0 (retRam8 ram0 13 - 4),
              wr (retRam8 ram0) 1 (retRam8 ram0 (retRam8 ram0 13 - 4))⟩ := rfl
    have w81 : retRam8 ram0 (ram0 1 - 4) = ram0 (ram0 1 - 4) := by
      simp only [retRam8, retRam7, retRam6, retRam5, retRam4, retRam3, retRam2,
        retRam1, wr]
      split_ifs <;> omega
    rw [base, w80, w81]; rfl
  have s9 : execList ["@R14", "A=M"] ⟨1, ram0 (ram0 1 - 4), retRam9 ram0⟩ =
      some ⟨ram0 (ram0 1 - 5), ram0 (ram0 1 - 4), retRam9 ram0⟩ := by
    have w9 : retRam9 ram0 14 = ram0 (ram0 1 - 5) := by
      simp only [retRam9, retRam8, retRam7, retRam6, retRam5, retRam4, retRam3,
        retRam2, retRam1, wr]
      split_ifs <;> omega
    have base : execList ["@R14", "A=M"] ⟨1, ram0 (ram0 1 - 4), retRam9 ram0⟩ =
        some ⟨retRam9 ram0 14, ram0 (ram0 1 - 4), retRam9 ram0⟩ := rfl
    rw [base, w9]
  refine ⟨⟨ram0 (ram0 1 - 5), ram0 (ram0 1 - 4), retRam9 ram0⟩,
    ?_, ?_, ?_, ?_, ?_, ?_, ?_, ?_, ?_, rfl⟩
  · have e0 : returnChunkSpec.dropLast =
        (["// return"] ++ retFrameSpec) ++ (retCaptureSpec ++ (retPopArgSpec ++
          (retSpSpec ++ (retRestoreSpec "THAT" 1 ++ (retRestoreSpec "THIS" 2 ++
            (retRestoreSpec "ARG" 3 ++ (retRestoreSpec "LCL" 4 ++
              ["@R14", "A=M"]))))))) := rfl
    rw [e0, execList_append_ok _ s1, execList_append_ok _ s2, execList_append_ok _ s3,
      execList_append_ok _ s4, execList_append_ok _ s5, execList_append_ok _ s6,
      execList_append_ok _ s7, execList_append_ok _ s8]
    exact s9
  · show retRam9 ram0 13 = ram0 1
    simp only [retRam9, retRam8, retRam7, retRam6, retRam5, retRam4, retRam3,
      retRam2, retRam1, wr]
    split_ifs <;> omega
  · show retRam9 ram0 14 = ram0 (ram0 1 - 5)
    simp only [retRam9, retRam8, retRam7, retRam6, retRam5, retRam4, retRam3,
      retRam2, retRam1, wr]
    split_ifs <;> omega
  · show retRam9 ram0 (ram0 2) = ram0 (ram0 0 - 1)
    simp only [retRam9, retRam8, retRam7, retRam6, retRam5, retRam4, retRam3,
      retRam2, retRam1, wr]
    split_ifs <;> omega
  · show retRam9 ram0 0 = ram0 2 + 1
    simp only [retRam9, retRam8, retRam7, retRam6, retRam5, retRam4, retRam3,
      retRam2, retRam1, wr]
    split_ifs <;> omega
  · show retRam9 ram0 4 = ram0 (ram0 1 - 1)
    simp only [retRam9, retRam8, retRam7, retRam6, retRam5, retRam4, retRam3,
      retRam2, retRam1, wr]
    split_ifs <;> omega
  · show retRam9 ram0 3 = ram0 (ram0 1 - 2)
    simp only [retRam9, retRam8, retRam7, retRam6, retRam5, retRam4, retRam3,
      retRam2, retRam1, wr]
    split_ifs <;> omega
  · show retRam9 ram0 2 = ram0 (ram0 1 - 3)
    simp only [retRam9, retRam8, retRam7, retRam6, retRam5, retRam4, retRam3,
      retRam2, retRam1, wr]
    split_ifs <;> omega
  · show retRam9 ram0 1 = ram0 (ram0 1 - 4)
    simp only [retRam9, retRam8, retRam7, retRam6, retRam5, retRam4, retRam3,
      retRam2, retRam1, wr]
    split_ifs <;> omega

/-- **C3.** `write_return` emits exactly the spec's return sequence, in
order: `FRAME := LCL` into `R13`; `RET := RAM[FRAME-5]` into `R14`
*strictly before* the popped return value is written to `RAM[ARG]`;
then `SP := ARG + 1`; then restores of `THAT, THIS, ARG, LCL` from
`RAM[FRAME-1..4]` in that order; finally a jump through `R14`.
Moreover, running the emitted code (up to the jump) on any plausible
frame (`256 ≤ ARG`, `ARG + 5 ≤ LCL < SP ≤ 32767`) really performs those
assignments: `R13 = LCL`, `R14 =` the *original* `RAM[LCL-5]` (even
when `ARG = LCL - 5`, the `n = 0` aliasing case), `RAM[ARG] =` popped
top of stack, `SP = ARG + 1`, the four restores, and control transfers
to the captured return address. -/
theorem c3_write_return_splice (st : VM8.CW) (ram0 : Int → Int)
    (h1 : 256 ≤ ram0 2) (h2 : ram0 2 + 5 ≤ ram0 1) (h3 : ram0 1 < ram0 0)
    (h4 : ram0 0 ≤ 32767) :
    VM8.write_return st = { st with lines := st.lines ++ returnChunkSpec } ∧
    (∃ stf : HState,
      execList returnChunkSpec.dropLast ⟨0, 0, ram0⟩ = some stf ∧
      stf.ram 13 = ram0 1 ∧
      stf.ram 14 = ram0 (ram0 1 - 5) ∧
      stf.ram (ram0 2) = ram0 (ram0 0 - 1) ∧
      stf.ram 0 = ram0 2 + 1 ∧
      stf.ram 4 = ram0 (ram0 1 - 1) ∧
      stf.ram 3 = ram0 (ram0 1 - 2) ∧
      stf.ram 2 = ram0 (ram0 1 - 3) ∧
      stf.ram 1 = ram0 (ram0 1 - 4) ∧
      stf.A = ram0 (ram0 1 - 5)) := by
  constructor
  · simp only [VM8.write_return, VM8.restore_segment_from_frame, returnChunkSpec,
      retFrameSpec, retCaptureSpec, retPopArgSpec, retSpSpec, retRestoreSpec,
      retGotoSpec, List.append_assoc, List.cons_append, List.nil_append]
  · exact return_exec_sem ram0 h1 h2 h3 h4

/-- Witness for `c3_write_return_splice`: a fresh writer and the
concrete frame RAM `ramW` (`SP=320`, `LCL=310`, `ARG=300`). -/
theorem c3_write_return_splice_witness :
    VM8.write_return VM8.initialCW =
      { VM8.initialCW with lines := VM8.initialCW.lines ++ returnChunkSpec } ∧
    (∃ stf : HState,
      execList returnChunkSpec.dropLast ⟨0, 0, ramW⟩ = some stf ∧
      stf.ram 13 = ramW 1 ∧
      stf.ram 14 = ramW (ramW 1 - 5) ∧
      stf.ram (ramW 2) = ramW (ramW 0 - 1) ∧
      stf.ram 0 = ramW 2 + 1 ∧
      stf.ram 4 = ramW (ramW 1 - 1) ∧
      stf.ram 3 = ramW (ramW 1 - 2) ∧
      stf.ram 2 = ramW (ramW 1 - 3) ∧
      stf.ram 1 = ramW (ramW 1 - 4) ∧
      stf.A = ramW (ramW 1 - 5)) :=
  c3_write_return_splice VM8.initialCW ramW (by decide) (by decide) (by decide)
    (by decide)

/-- Extension is transitive. -/
theorem linesExt_trans {a b c : List String} (h1 : LinesExt a b) (h2 : LinesExt b c) :
    LinesExt a c := by
  obtain ⟨t1, rfl⟩ := h1
  obtain ⟨t2, rfl⟩ := h2
  exact ⟨t1 ++ t2, by simp⟩

/-- `_write_binary_op` only appends lines. -/
theorem vm8_binary_ext (op : String) (st : VM8.CW) :
    LinesExt st.lines (VM8.write_binary_op op st).lines := by
  unfold VM8.write_binary_op
  split_ifs <;> first
    | exact ⟨_, List.append_assoc _ _ _⟩
    | exact ⟨_, rfl⟩

/-- `_write_unary_op` only appends lines. -/
theorem vm8_unary_ext (op : String) (st : VM8.CW) :
    LinesExt st.lines (VM8.write_unary_op op st).lines := by
  unfold VM8.write_unary_op
  split_ifs <;> first
    | exact ⟨_, List.append_assoc _ _ _⟩
    | exact ⟨_, rfl⟩

/-- A successful `_write_push` only appends lines. -/
theorem vm8_push_ext {seg : String} {i : Int} {st st' : VM8.CW}
    (h : VM8.write_push seg i st = .ok st') : LinesExt st.lines st'.lines := by
  simp only [VM8.write_push] at h
  split at h
  · exact Except.noConfusion h
  · injection h with h2
    subst h2
    exact ⟨_, List.append_assoc _ _ _⟩

/-- A successful `_write_pop` only appends lines. -/
theorem vm8_pop_ext {seg : String} {i : Int} {st st' : VM8.CW}
    (h : VM8.write_pop seg i st = .ok st') : LinesExt st.lines st'.lines := by
  unfold VM8.write_pop at h
  split_ifs at h <;> first
    | exact Except.noConfusion h
    | (injection h with h2; subst h2;
       simp only [List.append_assoc]
       exact ⟨_, rfl⟩)

/-- A successful `write_push_pop` only appends lines. -/
theorem vm8_push_pop_ext {b : Bool} {seg : String} {i : Int} {st st' : VM8.CW}
    (h : VM8.write_push_pop b seg i st = .ok st') : LinesExt st.lines st'.lines := by
  unfold VM8.write_push_pop at h
  split_ifs at h
  · exact linesExt_trans ⟨_, rfl⟩ (vm8_push_ext h)
  · exact linesExt_trans ⟨_, rfl⟩ (vm8_pop_ext h)

/-- A successful `write_arithmetic` only appends lines. -/
theorem vm8_arith_ext {op : String} {st st' : VM8.CW}
    (h : VM8.write_arithmetic op st = .ok st') : LinesExt st.lines st'.lines := by
  unfold VM8.write_arithmetic at h
  split_ifs at h
  · injection h with h2
    subst h2
    exact linesExt_trans ⟨_, rfl⟩ (vm8_binary_ext _ _)
  · injection h with h2
    subst h2
    exact linesExt_trans ⟨_, rfl⟩ (vm8_unary_ext _ _)
  · simp only [VM8.write_compare, VM8.strUPPER] at h
    exact Except.noConfusion h

/-- `write_label` only appends lines. -/
theorem vm8_label_ext (lab : String) (st : VM8.CW) :
    LinesExt st.lines (VM8.write_label lab st).lines := ⟨_, rfl⟩

/-- `write_goto` only appends lines. -/
theorem vm8_goto_ext (lab : String) (st : VM8.CW) :
    LinesExt st.lines (VM8.write_goto lab st).lines := ⟨_, rfl⟩

/-- `write_if` only appends lines. -/
theorem vm8_if_ext (lab : String) (st : VM8.CW) :
    LinesExt st.lines (VM8.write_if lab st).lines := ⟨_, rfl⟩

/-- The local-initialization loop only appends lines. -/
theorem vm8_pushLocals_ext {k : Nat} {st st' : VM8.CW}
    (h : VM8.pushLocals k st = .ok st') : LinesExt st.lines st'.lines := by
  induction k generalizing st with
  | zero =>
    injection h with h2
    subst h2
    exact ⟨[], by simp⟩
  | succ k ih =>
    unfold VM8.pushLocals at h
    split at h
    · next st1 heq => exact linesExt_trans (vm8_push_ext heq) (ih h)
    · exact Except.noConfusion h

/-- A successful `write_function` only appends lines. -/
theorem vm8_function_ext {name : String} {k : Int} {st st' : VM8.CW}
    (h : VM8.write_function name k st = .ok st') : LinesExt st.lines st'.lines := by
  unfold VM8.write_function at h
  exact linesExt_trans ⟨_, rfl⟩ (vm8_pushLocals_ext h)

/-- `write_call` only appends lines. -/
theorem vm8_call_ext (name : String) (n : Int) (st : VM8.CW) :
    LinesExt st.lines (VM8.write_call name n st).lines :=
  ⟨["// call " ++ name ++ " " ++ toString n] ++
      (["@" ++ (name ++ "$ret." ++ toString st.callCount), "D=A", "@SP", "A=M",
        "M=D", "@SP", "M=M+1"] ++
        (["@" ++ "LCL", "D=M", "@SP", "A=M", "M=D", "@SP", "M=M+1"] ++
          (["@" ++ "ARG", "D=M", "@SP", "A=M", "M=D", "@SP", "M=M+1"] ++
            (["@" ++ "THIS", "D=M", "@SP", "A=M", "M=D", "@SP", "M=M+1"] ++
              (["@" ++ "THAT", "D=M", "@SP", "A=M", "M=D", "@SP", "M=M+1"] ++
                (["@SP", "D=M", "@5", "D=D-A", "@" ++ toString n, "D=D-A", "@ARG",
                  "M=D"] ++
                  (["@SP", "D=M", "@LCL", "M=D"] ++
                    (["@" ++ name, "0;JMP"] ++
                      ["(" ++ (name ++ "$ret." ++ toString st.callCount) ++
                        ")"])))))))),
    by
      simp only [VM8.write_call, List.foldl_cons, List.foldl_nil, List.append_assoc,
        List.nil_append]⟩

/-- `write_return` only appends lines. -/
theorem vm8_return_ext (st : VM8.CW) :
    LinesExt st.lines (VM8.write_return st).lines :=
  ⟨["// return", "@LCL", "D=M", "@R13", "M=D", "@5", "A=D-A", "D=M", "@R14",
    "M=D", "@SP", "AM=M-1", "D=M", "@ARG", "A=M", "M=D", "@ARG", "D=M+1", "@SP",
    "M=D", "@R13", "D=M", "@" ++ toString 1, "A=D-A", "D=M", "@" ++ "THAT",
    "M=D", "@R13", "D=M", "@" ++ toString 2, "A=D-A", "D=M", "@" ++ "THIS",
    "M=D", "@R13", "D=M", "@" ++ toString 3, "A=D-A", "D=M", "@" ++ "ARG",
    "M=D", "@R13", "D=M", "@" ++ toString 4, "A=D-A", "D=M", "@" ++ "LCL",
    "M=D", "@R14", "A=M", "0;JMP"],
    by
      simp only [VM8.write_return, VM8.restore_segment_from_frame,
        List.append_assoc, List.cons_append, List.nil_append]⟩

set_option maxHeartbeats 1600000 in
/-- A successful `translateCmd` only appends lines. -/
theorem vm8_translateCmd_ext {cmd : Line} {st st' : VM8.CW}
    (h : VM8.translateCmd cmd st = .ok st') : LinesExt st.lines st'.lines := by
  simp only [VM8.translateCmd] at h
  iterate 14 (all_goals try split at h)
  all_goals first
    | exact Except.noConfusion h
    | exact vm8_push_pop_ext h
    | exact vm8_function_ext h
    | exact vm8_arith_ext h
    | (injection h with h2; subst h2;
       first
         | exact vm8_label_ext _ _
         | exact vm8_goto_ext _ _
         | exact vm8_if_ext _ _
         | exact vm8_call_ext _ _ _
         | exact vm8_return_ext _)

/-- A successful command loop only appends lines. -/
theorem vm8_translateCmds_ext {cs : List Line} {st st' : VM8.CW}
    (h : VM8.translateCmds cs st = .ok st') : LinesExt st.lines st'.lines := by
  induction cs generalizing st with
  | nil =>
    injection h with h2
    subst h2
    exact ⟨[], by simp⟩
  | cons c rest ih =>
    unfold VM8.translateCmds at h
    split at h
    · next st1 heq => exact linesExt_trans (vm8_translateCmd_ext heq) (ih h)
    · exact Except.noConfusion h

/-- A successful `translate_vm_text` only appends lines. -/
theorem vm8_text_ext {text : List Line} {fn : String} {st st' : VM8.CW}
    (h : VM8.translate_vm_text text fn st = .ok st') : LinesExt st.lines st'.lines := by
  unfold VM8.translate_vm_text at h
  have e := vm8_translateCmds_ext h
  exact e

/-- A successful multi-file loop only appends lines. -/
theorem vm8_files_ext {files : List (String × List Line)} {st st' : VM8.CW}
    (h : VM8.translateFiles files st = .ok st') : LinesExt st.lines st'.lines := by
  induction files generalizing st with
  | nil =>
    injection h with h2
    subst h2
    exact ⟨[], by simp⟩
  | cons f rest ih =>
    obtain ⟨fname, text⟩ := f
    unfold VM8.translateFiles at h
    split at h
    · next st1 heq =>
      exact linesExt_trans (linesExt_trans ⟨_, rfl⟩ (vm8_text_ext heq)) (ih h)
    · exact Except.noConfusion h

/-- **C4.** In directory mode the translator's output starts with the
bootstrap — `SP := 256` followed by the translation of `call Sys.init 0`
— emitted once by the single `write_init` call before the per-file loop,
so it precedes every file's translation; the fresh writer's bootstrap
lines are exactly `bootstrapSpec`.  In single-file mode the output is
the per-file loop's output alone, beginning with the file's header
comment: no bootstrap is emitted. -/
theorem c4_bootstrap_emission :
    (∀ (files : List (String × List Line)) (out : List String),
        files ≠ [] →
        VM8.mainTranslate true files = .ok out →
        ∃ tail, out = bootstrapSpec ++ tail) ∧
    (VM8.write_init VM8.initialCW).lines = bootstrapSpec ∧
    (∀ (f : String × List Line) (out : List String),
        VM8.mainTranslate false [f] = .ok out →
        ∃ st1, VM8.translateFiles [f] VM8.initialCW = .ok st1 ∧ out = st1.lines ∧
          ∃ tail, out = ("// === " ++ f.1 ++ ".vm ===") :: tail) := by
  refine ⟨?_, rfl, ?_⟩
  · intro files out _hne h
    have h' : (VM8.translateFiles files (VM8.write_init VM8.initialCW)).map
        VM8.CW.lines = Except.ok out := h
    cases ht : VM8.translateFiles files (VM8.write_init VM8.initialCW) with
    | error e => rw [ht] at h'; exact Except.noConfusion h'
    | ok stf =>
      rw [ht] at h'
      injection h' with h2
      obtain ⟨t, htail⟩ := vm8_files_ext ht
      refine ⟨t, ?_⟩
      rw [← h2, htail]
      rfl
  · intro f out h
    obtain ⟨fname, text⟩ := f
    have h' : (VM8.translateFiles [(fname, text)] VM8.initialCW).map
        VM8.CW.lines = Except.ok out := h
    cases ht : VM8.translateFiles [(fname, text)] VM8.initialCW with
    | error e => rw [ht] at h'; exact Except.noConfusion h'
    | ok st1 =>
      rw [ht] at h'
      injection h' with h2
      refine ⟨st1, rfl, h2.symm, ?_⟩
      have h3 := ht
      unfold VM8.translateFiles at h3
      split at h3
      · next st2 heq =>
        obtain ⟨t2, ht2⟩ := vm8_text_ext heq
        have h5 : st2 = st1 := by injection h3
        subst h5
        refine ⟨t2, ?_⟩
        rw [← h2, ht2]
        rfl
      · exact Except.noConfusion h3

/-- Witness for `c4_bootstrap_emission` on the concrete input
`c4Files`. -/
theorem c4_bootstrap_emission_witness :
    (∃ tail, c4DirOut = bootstrapSpec ++ tail) ∧
    (∃ st1, VM8.translateFiles c4Files VM8.initialCW = .ok st1 ∧
      c4OneOut = st1.lines ∧
      ∃ tail, c4OneOut = ("// === " ++ "Main" ++ ".vm ===") :: tail) :=
  ⟨c4_bootstrap_emission.1 c4Files c4DirOut (by decide) rfl,
   c4_bootstrap_emission.2.2 ("Main", ["push constant 7".toList]) c4OneOut rfl⟩

/-- **C5.** For every C-instruction whose fields are in the fixed
tables, pass 2 emits `111 ++ comp7 ++ dest3 ++ jump3`; an absent dest or
jump encodes as `000`; concretely, `D=A` assembles to
`1110110000010000` and `0;JMP` to `1110101010000111`. -/
theorem c5_c_instruction_encoding :
    (∀ (d j : Option String) (c : String) (cb db jb : String) (st : Pass2St)
        (l : Line),
        COMP_TABLE c = some cb → DEST_TABLE d = some db → JUMP_TABLE j = some jb →
        classify l = .cInstr d c j →
        pass2Step st l = .ok { st with out := st.out ++ ["111" ++ cb ++ db ++ jb] }) ∧
    DEST_TABLE none = some "000" ∧ JUMP_TABLE none = some "000" ∧
    (∀ st : Pass2St,
        pass2Step st ("D=A".toList) =
          .ok { st with out := st.out ++ ["1110110000010000"] }) ∧
    (∀ st : Pass2St,
        pass2Step st ("0;JMP".toList) =
          .ok { st with out := st.out ++ ["1110101010000111"] }) := by
  refine ⟨?_, rfl, rfl, fun st => rfl, fun st => rfl⟩
  intro d j c cb db jb st l hc hd hj hcl
  unfold pass2Step
  rw [hcl]
  simp only [hc, hd, hj]

/-- Witness for `c5_c_instruction_encoding`: the C-instruction
`M=D+1;JGT`. -/
theorem c5_c_instruction_encoding_witness :
    pass2Step ⟨[], [], 16⟩ ("M=D+1;JGT".toList) =
      .ok { out := ["111" ++ "0011111" ++ "001" ++ "001"], symbols := [],
            nextVar := 16 } :=
  c5_c_instruction_encoding.1 (some "M") (some "JGT") "D+1" "0011111" "001" "001"
    ⟨[], [], 16⟩ ("M=D+1;JGT".toList) rfl rfl rfl rfl

/-- Folding the fuel-computed binary digits of `n` (most significant
first) reconstructs `n`, for sufficient fuel. -/
theorem binDigitsAux_foldl (fuel : Nat) :
    ∀ n : Nat, n ≤ fuel →
      List.foldl (fun a c => 2 * a + (if c = '1' then 1 else 0)) 0
        ((binDigitsAux fuel n).reverse) = n := by
  induction fuel with
  | zero =>
    intro n hn
    have h0 : n = 0 := by omega
    subst h0
    rfl
  | succ fuel ih =>
    intro n hn
    by_cases h0 : n = 0
    · subst h0; simp [binDigitsAux]
    · rw [binDigitsAux, if_neg h0, List.reverse_cons, List.foldl_append,
        ih (n / 2) (by omega)]
      rcases Nat.mod_two_eq_zero_or_one n with hm | hm <;> simp [hm] <;> omega

/-- Folding the binary digits of `n` (most significant first)
reconstructs `n`. -/
theorem bin_foldl (n : Nat) :
    List.foldl (fun a c => 2 * a + (if c = '1' then 1 else 0)) 0
      ((natToBinRev n).reverse) = n :=
  binDigitsAux_foldl n n (Nat.le_refl n)

/-- Leading zeros contribute nothing to the decoded value. -/
theorem zeros_foldl (k : Nat) :
    List.foldl (fun a c => 2 * a + (if c = '1' then 1 else 0)) 0
      (List.replicate k '0') = 0 := by
  induction k with
  | zero => rfl
  | succ k ih => simpa [List.replicate_succ] using ih

/-- Decoding the 15-bit zero-padded binary of `v` gives back `v`. -/
theorem decode_to15 (v : Nat) : decodeBits (to15ok v) = v := by
  show List.foldl _ 0 (List.replicate (15 - (natToBinRev v).length) '0'
    ++ (natToBinRev v).reverse) = v
  rw [List.foldl_append, zeros_foldl, bin_foldl]

/-- **C8.** For an A-instruction whose token is an all-digit decimal
literal of value `v`, pass 2 emits the word `0` + 15-bit binary of `v`
— whose decoded value is exactly `v` — when `v ∈ [0, 32767]`, and fails
with `ConstantOutOfRange` exactly when `v ∉ [0, 32767]`. -/
theorem c8_a_constant_range (l : Line) (v : Nat) (st : Pass2St)
    (hcl : classify l = .aConst v) :
    ((0 ≤ (v : Int) ∧ (v : Int) ≤ 32767) →
      pass2Step st l = .ok { st with out := st.out ++ ["0" ++ to15ok v] } ∧
      decodeBits (to15ok v) = v) ∧
    (¬(0 ≤ (v : Int) ∧ (v : Int) ≤ 32767) →
      pass2Step st l = .error (.constantOutOfRange v)) := by
  constructor
  · intro hv
    have hv2 : ¬ 32767 < v := by omega
    constructor
    · unfold pass2Step
      rw [hcl]
      simp only [to_15bit_binary, if_neg hv2]
    · exact decode_to15 v
  · intro hv
    have hv2 : 32767 < v := by omega
    unfold pass2Step
    rw [hcl]
    simp only [to_15bit_binary, if_pos hv2]

/-- Witness for `c8_a_constant_range`: `@5` assembles in range, `@40000`
is rejected. -/
theorem c8_a_constant_range_witness :
    (pass2Step ⟨[], [], 16⟩ ("@5".toList) =
        .ok { out := ["0" ++ to15ok 5], symbols := [], nextVar := 16 } ∧
      decodeBits (to15ok 5) = 5) ∧
    pass2Step ⟨[], [], 16⟩ ("@40000".toList) =
      .error (.constantOutOfRange 40000) :=
  ⟨(c8_a_constant_range ("@5".toList) 5 ⟨[], [], 16⟩ rfl).1 (by decide),
   (c8_a_constant_range ("@40000".toList) 40000 ⟨[], [], 16⟩ rfl).2 (by decide)⟩

/-- Each pass-1 step advances the ROM address by 1 exactly on real
instruction lines (and never on blanks or labels). -/
theorem pass1Step_rom {st st1 : SymTable × Nat} {l : Line}
    (h : pass1Step st l = .ok st1) :
    st1.2 = st.2 + (if isInstrLine l then 1 else 0) := by
  unfold pass1Step at h
  cases hcl : classify l
  case blank =>
    rw [hcl] at h
    injection h with h2
    subst h2
    simp [isInstrLine, hcl]
  case labelLine inner =>
    rw [hcl] at h
    simp only [] at h
    split_ifs at h with hval
    split at h
    all_goals try split_ifs at h with har
    all_goals first
      | exact Except.noConfusion h
      | (injection h with h2; subst h2; simp [isInstrLine, hcl])
  case aConst v =>
    rw [hcl] at h
    injection h with h2
    subst h2
    simp [isInstrLine, hcl]
  case aSymbol name =>
    rw [hcl] at h
    injection h with h2
    subst h2
    simp [isInstrLine, hcl]
  case cInstr d c j =>
    rw [hcl] at h
    injection h with h2
    subst h2
    simp [isInstrLine, hcl]

/-- **C7.** In pass 1 the ROM address equals the running count of real
instructions, so a `(NAME)` pseudo-instruction binds `NAME` to the ROM
address of the next real instruction; for a syntactically valid label
line: if `NAME` is unbound it is bound to the current ROM address, if it
is already bound to the same address the line is a no-op, and if it is
bound to a different address pass 1 fails with `LabelRedefined`. -/
theorem c7_pass1_label_binding :
    (∀ (lines : List Line) (sym0 : SymTable) (r0 : Nat) (sym : SymTable) (r : Nat),
        pass1Aux lines (sym0, r0) = .ok (sym, r) → r = r0 + instrCount lines) ∧
    (∀ (l inner : Line) (sym : SymTable) (r : Nat),
        classify l = .labelLine inner →
        inner ≠ [] → inner.any pyIsSpaceChar = false →
        (lookupSym (String.mk inner) sym = none →
          pass1Step (sym, r) l = .ok ((String.mk inner, r) :: sym, r)) ∧
        (∀ a, lookupSym (String.mk inner) sym = some a →
          (a = r → pass1Step (sym, r) l = .ok (sym, r)) ∧
          (a ≠ r →
            pass1Step (sym, r) l = .error (.labelRedefined (String.mk inner))))) := by
  constructor
  · intro lines
    induction lines with
    | nil =>
      intro sym0 r0 sym r h
      injection h with h2
      injection h2 with h3 h4
      subst h3
      subst h4
      simp [instrCount]
    | cons l ls ih =>
      intro sym0 r0 sym r h
      unfold pass1Aux at h
      split at h
      · next st1 heq =>
        have h5 := pass1Step_rom heq
        have h6 := ih st1.1 st1.2 sym r h
        cases hil : isInstrLine l <;>
          simp only [instrCount, List.countP_cons, hil, if_true, if_false,
            if_pos, if_neg] at h5 h6 ⊢ <;>
          omega
      · exact Except.noConfusion h
  · intro l inner sym r hcl hne hnsp
    have hvc : (decide (inner = []) || inner.any pyIsSpaceChar) = false := by
      simp [hne, hnsp]
    refine ⟨?_, ?_⟩
    · intro hlk
      unfold pass1Step
      rw [hcl]
      simp only [hvc, Bool.false_eq_true, if_false, hlk]
    · intro a ha
      refine ⟨?_, ?_⟩
      · intro har
        unfold pass1Step
        rw [hcl]
        simp only [hvc, Bool.false_eq_true, if_false, ha, har, if_pos]
      · intro har
        unfold pass1Step
        rw [hcl]
        simp only [hvc, Bool.false_eq_true, if_false, ha, har, if_neg]

/-- Witness for `c7_pass1_label_binding`: a three-line program whose
label sits between two instructions, and a fresh `(LOOP)` binding. -/
theorem c7_pass1_label_binding_witness :
    (2 = 0 + instrCount ["@1".toList, "(L)".toList, "D=A".toList]) ∧
    pass1Step ([], 0) ("(LOOP)".toList) = .ok ([("LOOP", 0)], 0) :=
  ⟨c7_pass1_label_binding.1 ["@1".toList, "(L)".toList, "D=A".toList] [] 0
      [("L", 1)] 2 rfl,
   (c7_pass1_label_binding.2 ("(LOOP)".toList) ("LOOP".toList) [] 0 rfl
      (by decide) (by decide)).1 rfl⟩

/-- `dropWhile` is idempotent. -/
theorem dropWhile_idem (p : Char → Bool) (l : List Char) :
    List.dropWhile p (List.dropWhile p l) = List.dropWhile p l := by
  induction l with
  | nil => rfl
  | cons c rest ih => cases hc : p c <;> simp [List.dropWhile_cons, hc, ih]

/-- `dropWhile` never removes a final element that fails the predicate. -/
theorem dropWhile_append_last {p : Char → Bool} {a : Char} (ha : p a = false)
    (u : List Char) :
    List.dropWhile p (u ++ [a]) = List.dropWhile p u ++ [a] := by
  induction u with
  | nil => simp [List.dropWhile_cons, ha]
  | cons c rest ih => cases hc : p c <;> simp [List.dropWhile_cons, hc, ih]

/-- The head of a nonempty `dropWhile` result fails the predicate. -/
theorem dropWhile_head_false {p : Char → Bool} {l : List Char} {a : Char}
    {t : List Char} (hx : List.dropWhile p l = a :: t) : p a = false := by
  induction l with
  | nil => simp at hx
  | cons c rest ih =>
    rw [List.dropWhile_cons] at hx
    split_ifs at hx with hc
    · exact ih hx
    · injection hx with h1 _
      subst h1
      simpa using hc

/-- Stripping a list whose head is non-space and whose reverse is
already left-stripped changes nothing. -/
theorem pyStrip_keep {a : Char} {Z : List Char} (ha : pyIsSpaceChar a = false)
    (hz : List.dropWhile pyIsSpaceChar Z.reverse = Z.reverse) :
    pyStrip (a :: Z) = a :: Z := by
  unfold pyStrip
  rw [List.dropWhile_cons, if_neg (by simp [ha]), List.reverse_cons,
    dropWhile_append_last ha, hz, List.reverse_append, List.reverse_reverse]
  simp

/-- Python `strip` is idempotent. -/
theorem pyStrip_idem (l : Line) : pyStrip (pyStrip l) = pyStrip l := by
  cases hx : List.dropWhile pyIsSpaceChar l with
  | nil =>
    have e1 : pyStrip l = [] := by
      unfold pyStrip
      rw [hx]
      rfl
    rw [e1]
    rfl
  | cons a t =>
    have ha := dropWhile_head_false hx
    have e1 : pyStrip l = a :: (List.dropWhile pyIsSpaceChar t.reverse).reverse := by
      unfold pyStrip
      rw [hx, List.reverse_cons, dropWhile_append_last ha, List.reverse_append]
      simp
    rw [e1]
    exact pyStrip_keep ha (by rw [List.reverse_reverse]; exact dropWhile_idem _ _)

/-- `beforeComment` returns either an empty head or the original head. -/
theorem beforeComment_head? (l : Line) :
    (beforeComment l).head? = none ∨ (beforeComment l).head? = l.head? := by
  cases l with
  | nil => exact Or.inl rfl
  | cons c rest =>
    unfold beforeComment
    split_ifs
    · exact Or.inl rfl
    · exact Or.inr rfl

/-- The part before the first `//` contains no `//`. -/
theorem hasDSlash_beforeComment (l : Line) : hasDSlash (beforeComment l) = false := by
  induction l with
  | nil => rfl
  | cons c rest ih =>
    unfold beforeComment
    split_ifs with hc
    · rfl
    · unfold hasDSlash
      rw [ih, Bool.or_false]
      rcases beforeComment_head? rest with hbc | hbc
      · simp [hbc]
      · rw [hbc]
        simpa using hc

/-- On text without `//`, `beforeComment` is the identity. -/
theorem beforeComment_of_no_ds {l : Line} (h : hasDSlash l = false) :
    beforeComment l = l := by
  induction l with
  | nil => rfl
  | cons c rest ih =>
    unfold hasDSlash at h
    rw [Bool.or_eq_false_iff] at h
    unfold beforeComment
    rw [if_neg (by simp [h.1]), ih h.2]

/-- `//`-freedom fails if it already fails in a right part. -/
theorem hasDSlash_mono_left (s : Line) {u : Line} (h : hasDSlash u = true) :
    hasDSlash (s ++ u) = true := by
  induction s with
  | nil => simpa using h
  | cons c rest ih => simp [hasDSlash, ih]

/-- `//`-freedom fails if it already fails in a left part. -/
theorem hasDSlash_mono_right (t : Line) {u : Line} (h : hasDSlash u = true) :
    hasDSlash (u ++ t) = true := by
  induction u with
  | nil => simp [hasDSlash] at h
  | cons c rest ih =>
    simp only [hasDSlash] at h ⊢
    rcases (Bool.or_eq_true _ _).mp h with h1 | h1
    · rw [Bool.and_eq_true] at h1
      obtain ⟨hc, hh⟩ := h1
      have hh2 : rest.head? = some '/' := of_decide_eq_true hh
      have hc2 : c = '/' := of_decide_eq_true hc
      have hh3 : (rest ++ t).head? = some '/' := by
        cases rest with
        | nil => simp at hh2
        | cons d r2 => simpa using hh2
      simp [hc2, hh3]
    · simp [ih h1]

/-- `//`-freedom is inherited by infixes. -/
theorem hasDSlash_infix_false {u v : Line} (hinf : u <:+: v)
    (h : hasDSlash v = false) : hasDSlash u = false := by
  obtain ⟨s, t, rfl⟩ := hinf
  by_contra hcon
  have hu : hasDSlash u = true := by
    cases hval : hasDSlash u
    · exact absurd hval hcon
    · rfl
  have hall := hasDSlash_mono_left s (hasDSlash_mono_right t hu)
  rw [List.append_assoc] at h
  rw [hall] at h
  exact Bool.noConfusion h

/-- `pyStrip` only removes characters at the two ends. -/
theorem pyStrip_within (l : Line) : pyStrip l <:+: l := by
  unfold pyStrip
  have h1 : List.dropWhile pyIsSpaceChar l <:+ l := List.dropWhile_suffix _
  have h2 : List.dropWhile pyIsSpaceChar ((List.dropWhile pyIsSpaceChar l).reverse)
      <:+ (List.dropWhile pyIsSpaceChar l).reverse := List.dropWhile_suffix _
  have h3 : (List.dropWhile pyIsSpaceChar
        ((List.dropWhile pyIsSpaceChar l).reverse)).reverse
      <+: List.dropWhile pyIsSpaceChar l := by
    simpa using List.reverse_prefix.mpr h2
  exact h3.isInfix.trans h1.isInfix

/-- **C9.** Line normalization — drop everything from the first `//`,
then strip surrounding whitespace — is idempotent, both for the
assembler's `strip_comment_and_ws` and for the VM parsers'
`split("//")[0].strip()`. -/
theorem c9_normalization_idem :
    (∀ l : Line,
      strip_comment_and_ws (strip_comment_and_ws l) = strip_comment_and_ws l) ∧
    (∀ l : Line, vmNormalize (vmNormalize l) = vmNormalize l) := by
  have hno : ∀ l : Line, hasDSlash (strip_comment_and_ws l) = false := by
    intro l
    unfold strip_comment_and_ws
    apply hasDSlash_infix_false (pyStrip_within _)
    split_ifs with h
    · exact hasDSlash_beforeComment l
    · simpa using h
  constructor
  · intro l
    have h2 := hno l
    unfold strip_comment_and_ws at h2 ⊢
    rw [if_neg (by simp [h2])]
    exact pyStrip_idem _
  · intro l
    have h1 : hasDSlash (vmNormalize l) = false :=
      hasDSlash_infix_false (pyStrip_within _) (hasDSlash_beforeComment l)
    show pyStrip (beforeComment (vmNormalize l)) = vmNormalize l
    rw [beforeComment_of_no_ds h1]
    exact pyStrip_idem _

/-- The keys of a consed table. -/
theorem symKeys_cons (a : String) (v : Nat) (t : SymTable) :
    symKeys ((a, v) :: t) = a :: symKeys t := rfl

/-- `lookupSym` misses exactly the keys outside the table. -/
theorem lookupSym_none_iff (k : String) (t : SymTable) :
    lookupSym k t = none ↔ k ∉ symKeys t := by
  induction t with
  | nil => simp [lookupSym, symKeys]
  | cons p rest ih =>
    obtain ⟨a, v⟩ := p
    rw [symKeys_cons]
    simp only [lookupSym]
    split_ifs with hak
    · subst hak
      simp
    · rw [ih]
      have hka : ¬(k = a) := fun h => hak h.symm
      simp [List.mem_cons, hka]

/-- The pass-2 allocation invariant: over any successful run,
`next_var_addr` advances by the number of first-occurrence unbound
symbols, the `k`-th such symbol (in textual order) ends bound to
`nextVar + k`, existing bindings survive unchanged, and the emitted
words are the program's lines resolved against the final table. -/
theorem pass2Aux_alloc (ls : List Line) :
    ∀ (st st' : Pass2St), pass2Aux ls st = .ok st' →
      st'.nextVar = st.nextVar + (newVarsAux ls (symKeys st.symbols)).length ∧
      (∀ k (hk : k < (newVarsAux ls (symKeys st.symbols)).length),
        lookupSym ((newVarsAux ls (symKeys st.symbols)).get ⟨k, hk⟩) st'.symbols =
          some (st.nextVar + k)) ∧
      (∀ s a, lookupSym s st.symbols = some a → lookupSym s st'.symbols = some a) ∧
      st'.out = st.out ++ outSpec st'.symbols ls := by
  induction ls with
  | nil =>
    intro st st' h
    injection h with h2
    subst h2
    refine ⟨by simp [newVarsAux], ?_, fun s a ha => ha, by simp [outSpec]⟩
    intro k hk
    simp [newVarsAux] at hk
  | cons l ls ih =>
    intro st st' h
    unfold pass2Aux at h
    split at h
    · next st1 heq =>
      unfold pass2Step at heq
      cases hcl : classify l
      case blank =>
        rw [hcl] at heq
        injection heq with h2
        subst h2
        obtain ⟨ih1, ih2, ih3, ih4⟩ := ih st st' h
        have hnv : newVarsAux (l :: ls) (symKeys st.symbols)
            = newVarsAux ls (symKeys st.symbols) := by simp [newVarsAux, hcl]
        have hlw : lineWord st'.symbols l = none := by simp [lineWord, hcl]
        have hos : outSpec st'.symbols (l :: ls) = outSpec st'.symbols ls := by
          simp [outSpec, List.filterMap_cons, hlw]
        rw [hnv, hos]
        exact ⟨ih1, ih2, ih3, ih4⟩
      case labelLine inner =>
        rw [hcl] at heq
        injection heq with h2
        subst h2
        obtain ⟨ih1, ih2, ih3, ih4⟩ := ih st st' h
        have hnv : newVarsAux (l :: ls) (symKeys st.symbols)
            = newVarsAux ls (symKeys st.symbols) := by simp [newVarsAux, hcl]
        have hlw : lineWord st'.symbols l = none := by simp [lineWord, hcl]
        have hos : outSpec st'.symbols (l :: ls) = outSpec st'.symbols ls := by
          simp [outSpec, List.filterMap_cons, hlw]
        rw [hnv, hos]
        exact ⟨ih1, ih2, ih3, ih4⟩
      case aConst v =>
        rw [hcl] at heq
        simp only [] at heq
        split at heq
        · next bits hbits =>
          injection heq with h2
          subst h2
          have hb2 : bits = to15ok v := by
            unfold to_15bit_binary at hbits
            split_ifs at hbits
            all_goals first
              | exact Except.noConfusion hbits
              | (injection hbits with h3; exact h3.symm)
          subst hb2
          obtain ⟨ih1, ih2, ih3, ih4⟩ := ih _ st' h
          have hnv : newVarsAux (l :: ls) (symKeys st.symbols)
              = newVarsAux ls (symKeys st.symbols) := by simp [newVarsAux, hcl]
          have hlw : lineWord st'.symbols l = some ("0" ++ to15ok v) := by
            simp [lineWord, hcl]
          have hos : outSpec st'.symbols (l :: ls)
              = ("0" ++ to15ok v) :: outSpec st'.symbols ls := by
            simp [outSpec, List.filterMap_cons, hlw]
          rw [hnv, hos]
          refine ⟨ih1, ih2, ih3, ?_⟩
          rw [ih4]
          simp
        · exact Except.noConfusion heq
      case aSymbol name =>
        rw [hcl] at heq
        simp only [] at heq
        split at heq
        · next hlk =>
          split at heq
          · next bits hbits =>
            injection heq with h2
            subst h2
            have hb2 : bits = to15ok st.nextVar := by
              unfold to_15bit_binary at hbits
              split_ifs at hbits
              all_goals first
                | exact Except.noConfusion hbits
                | (injection hbits with h3; exact h3.symm)
            subst hb2
            have hmem : name ∉ symKeys st.symbols := (lookupSym_none_iff _ _).mp hlk
            have hnv : newVarsAux (l :: ls) (symKeys st.symbols)
                = name :: newVarsAux ls (name :: symKeys st.symbols) := by
              simp [newVarsAux, hcl, hmem]
            obtain ⟨ih1, ih2, ih3, ih4⟩ := ih _ st' h
            have h0 : lookupSym name ((name, st.nextVar) :: st.symbols)
                = some st.nextVar := by simp [lookupSym]
            have hfin : lookupSym name st'.symbols = some st.nextVar := ih3 _ _ h0
            refine ⟨?_, ?_, ?_, ?_⟩
            · rw [hnv]
              simp only [List.length_cons]
              have ih1' : st'.nextVar = (st.nextVar + 1)
                  + (newVarsAux ls (name :: symKeys st.symbols)).length := ih1
              omega
            · rw [hnv]
              intro k hk
              cases k with
              | zero => simpa using hfin
              | succ k =>
                have hk2 : k < (newVarsAux ls (name :: symKeys st.symbols)).length := by
                  simp only [List.length_cons] at hk
                  omega
                have h5 := ih2 k hk2
                rw [show st.nextVar + (k + 1) = st.nextVar + 1 + k from by omega]
                exact h5
            · intro s a hs
              have hns : ¬(name = s) := by
                intro he
                rw [he] at hlk
                rw [hlk] at hs
                exact Option.noConfusion hs
              have h1 : lookupSym s ((name, st.nextVar) :: st.symbols) = some a := by
                simp [lookupSym, hns, hs]
              exact ih3 s a h1
            · have hlw : lineWord st'.symbols l
                  = some ("0" ++ to15ok st.nextVar) := by
                simp [lineWord, hcl, hfin]
              have hos : outSpec st'.symbols (l :: ls)
                  = ("0" ++ to15ok st.nextVar) :: outSpec st'.symbols ls := by
                simp [outSpec, List.filterMap_cons, hlw]
              rw [hos, ih4]
              simp
          · exact Except.noConfusion heq
        · next a hlk =>
          split at heq
          · next bits hbits =>
            injection heq with h2
            subst h2
            have hb2 : bits = to15ok a := by
              unfold to_15bit_binary at hbits
              split_ifs at hbits
              all_goals first
                | exact Except.noConfusion hbits
                | (injection hbits with h3; exact h3.symm)
            subst hb2
            have hmem : name ∈ symKeys st.symbols := by
              by_contra hmem
              have hnone := (lookupSym_none_iff name st.symbols).mpr hmem
              rw [hnone] at hlk
              exact Option.noConfusion hlk
            have hnv : newVarsAux (l :: ls) (symKeys st.symbols)
                = newVarsAux ls (symKeys st.symbols) := by
              simp [newVarsAux, hcl, hmem]
            obtain ⟨ih1, ih2, ih3, ih4⟩ := ih _ st' h
            have hfin : lookupSym name st'.symbols = some a := ih3 _ _ hlk
            have hlw : lineWord st'.symbols l = some ("0" ++ to15ok a) := by
              simp [lineWord, hcl, hfin]
            have hos : outSpec st'.symbols (l :: ls)
                = ("0" ++ to15ok a) :: outSpec st'.symbols ls := by
              simp [outSpec, List.filterMap_cons, hlw]
            rw [hnv, hos]
            refine ⟨ih1, ih2, ih3, ?_⟩
            rw [ih4]
            simp
          · exact Except.noConfusion heq
      case cInstr d c j =>
        rw [hcl] at heq
        simp only [] at heq
        split at heq
        · exact Except.noConfusion heq
        · next cb hcb =>
          split at heq
          · exact Except.noConfusion heq
          · next db hdb =>
            split at heq
            · exact Except.noConfusion heq
            · next jb hjb =>
              injection heq with h2
              subst h2
              obtain ⟨ih1, ih2, ih3, ih4⟩ := ih _ st' h
              have hnv : newVarsAux (l :: ls) (symKeys st.symbols)
                  = newVarsAux ls (symKeys st.symbols) := by simp [newVarsAux, hcl]
              have hlw : lineWord st'.symbols l
                  = some ("111" ++ cb ++ db ++ jb) := by
                simp [lineWord, hcl, hcb, hdb, hjb]
              have hos : outSpec st'.symbols (l :: ls)
                  = ("111" ++ cb ++ db ++ jb) :: outSpec st'.symbols ls := by
                simp [outSpec, List.filterMap_cons, hlw]
              rw [hnv, hos]
              refine ⟨ih1, ih2, ih3, ?_⟩
              rw [ih4]
              simp
    · exact Except.noConfusion h

/-- **C6.** Starting pass 2 with `next_var_addr = 16`, the `k`-th
distinct unbound A-instruction symbol (by order of first textual
occurrence) ends bound to `16 + k`, the allocation is dense
(`next_var_addr` ends at `16 +` the number of such symbols), bindings
never change once made (so every later occurrence of a symbol resolves
to the same address), and the emitted words are the program resolved
against that final table. -/
theorem c6_variable_allocation (lines : List Line) (sym0 : SymTable)
    (out0 : List String) (st' : Pass2St)
    (h : pass2Aux lines ⟨out0, sym0, 16⟩ = .ok st') :
    (∀ k (hk : k < (newVarsAux lines (symKeys sym0)).length),
      lookupSym ((newVarsAux lines (symKeys sym0)).get ⟨k, hk⟩) st'.symbols =
        some (16 + k)) ∧
    st'.nextVar = 16 + (newVarsAux lines (symKeys sym0)).length ∧
    (∀ s a, lookupSym s sym0 = some a → lookupSym s st'.symbols = some a) ∧
    st'.out = out0 ++ outSpec st'.symbols lines := by
  obtain ⟨h1, h2, h3, h4⟩ := pass2Aux_alloc lines ⟨out0, sym0, 16⟩ st' h
  exact ⟨h2, h1, h3, h4⟩

/-- Witness for `c6_variable_allocation` on the concrete program
`c6Lines` (`@i`, `M=1`, `@sum`, `M=0`, `@i`): `i` is bound to 16, `sum`
to 17, and the allocator ends at 18. -/
theorem c6_variable_allocation_witness :
    lookupSym "i" c6St.symbols = some 16 ∧
    lookupSym "sum" c6St.symbols = some 17 ∧
    c6St.nextVar = 18 := by
  have h := c6_variable_allocation c6Lines [] [] c6St rfl
  refine ⟨?_, ?_, ?_⟩
  · exact h.1 0 (by decide)
  · exact h.1 1 (by decide)
  · rw [h.2.1]
    rfl

end N2T
